import Mathlib

/-!
Shallow embedding of the attendance recognition pipeline of the
AIAttendanceSystem repository, together with theorems settling the frozen
claims about it.

Embedded source files:
* `src/face_recognition/matcher.py` — the `FaceMatcher` class
  (`recognize_face`, `add_known_face`).
* `src/api/attendance.py` — `calculate_iou` and the `process_frame`
  request handler (tracking cache, session window policy, attendance
  recorder), plus the session-completion transition of `update_session`.
* `src/models.py` — enums, the `AttendanceSession` / `AttendanceRecord`
  rows and the `unique_session_student` storage constraint.

Modelling conventions: Python floats are modelled as `ℚ` where the code
only ever produces rational values (timestamps, box coordinates, IOU,
elapsed minutes) and as `ℝ` where genuine square roots appear (match
confidences coming from Euclidean distance / cosine similarity).  A
fallible Python call is an `Option`; an uncaught exception inside the
`process_frame` `try` block is modelled by an error flag that aborts the
remaining loop iterations and makes the handler return no recognitions
list (the HTTP 500 path).  The external face detector and feature
extractor are pluggable collaborators and enter as function parameters.
-/

namespace AIAttendance

/-- Unpacked bounding box `[x1, y1, x2, y2]` in pixel coordinates. -/
structure Box where
  x1 : ℚ
  y1 : ℚ
  x2 : ℚ
  y2 : ℚ
deriving DecidableEq, Repr

/-- Embedding of `calculate_iou` (attendance.py lines 84-101):
intersection over union of two boxes, `0` when they do not overlap. -/
def calculate_iou (box1 box2 : Box) : ℚ :=
  let x_left := max box1.x1 box2.x1
  let y_top := max box1.y1 box2.y1
  let x_right := min box1.x2 box2.x2
  let y_bottom := min box1.y2 box2.y2
  if x_right < x_left ∨ y_bottom < y_top then 0
  else
    let intersection_area := (x_right - x_left) * (y_bottom - y_top)
    let box1_area := (box1.x2 - box1.x1) * (box1.y2 - box1.y1)
    let box2_area := (box2.x2 - box2.x1) * (box2.y2 - box2.y1)
    intersection_area / (box1_area + box2_area - intersection_area)

/-- Metadata dictionary attached to a known face (opaque to the pipeline). -/
def Metadata := List (String × String)

/-- State of `FaceMatcher` (matcher.py lines 18-27): four parallel arrays
plus the two configured thresholds.  Student ids are the integer user ids
of the web layer. -/
structure FaceMatcher where
  tolerance : ℚ
  confidence_threshold : ℝ
  known_face_encodings : List (List ℚ)
  known_face_ids : List ℕ
  known_face_names : List String
  known_face_metadata : List Metadata

/-- Sum of coordinatewise squared differences, the square of the Euclidean
distance computed by `np.linalg.norm(face_encoding - known_encoding)`. -/
def sqDist (a b : List ℚ) : ℚ :=
  ((a.zip b).map (fun p => (p.1 - p.2) ^ 2)).sum

/-- Dot product of two encodings. -/
def dotQ (a b : List ℚ) : ℚ :=
  ((a.zip b).map (fun p => p.1 * p.2)).sum

/-- Squared Euclidean norm of an encoding. -/
def normSq (a : List ℚ) : ℚ := dotQ a a

/-- Euclidean distance between two encodings (the dlib regime). -/
noncomputable def euclideanDistance (a b : List ℚ) : ℝ :=
  Real.sqrt ((sqDist a b : ℚ) : ℝ)

/-- Cosine similarity between two encodings, as computed by
`sklearn.metrics.pairwise.cosine_similarity` (the non-128-d regime). -/
noncomputable def cosineSimilarity (a b : List ℚ) : ℝ :=
  ((dotQ a b : ℚ) : ℝ) / (Real.sqrt ((normSq a : ℚ) : ℝ) * Real.sqrt ((normSq b : ℚ) : ℝ))

/-- Similarity score the matcher assigns to one stored encoding
(matcher.py lines 255-268): `1 / (1 + distance)` in the 128-d Euclidean
regime, cosine similarity otherwise. -/
noncomputable def similarityOf (q e : List ℚ) : ℝ :=
  if q.length = 128 then 1 / (1 + euclideanDistance q e)
  else cosineSimilarity q e

/-- The `similarities` list built in `recognize_face` (matcher.py lines
251-268): indexed scores for every stored encoding whose dimensionality
matches the query. -/
noncomputable def similarities (m : FaceMatcher) (q : List ℚ) : List (ℕ × ℝ) :=
  ((m.known_face_encodings.enum.filter (fun p => p.2.length = q.length)).map
    (fun p => (p.1, similarityOf q p.2)))

/-- Python `max(similarities, key=lambda x: x[1])`: fold keeping the
current maximum, replacing only on a strictly larger key, so the first
maximal element wins. -/
noncomputable def pyMaxBySnd (hd : ℕ × ℝ) (tl : List (ℕ × ℝ)) : ℕ × ℝ :=
  tl.foldl (fun acc y => if acc.2 < y.2 then y else acc) hd

/-- Embedding of `FaceMatcher.recognize_face` (matcher.py lines 236-294).
The argument is `Option` because a `None` encoding is handled explicitly;
an out-of-range parallel-array access raises inside the `try` block and
is mapped to the `(None, None, 0.0)` exception result. -/
noncomputable def recognize_face (m : FaceMatcher) (face_encoding : Option (List ℚ)) :
    Option ℕ × Option String × ℝ :=
  match face_encoding with
  | none => (none, none, 0)
  | some q =>
    if m.known_face_encodings.length = 0 then (none, none, 0)
    else
      match similarities m q with
      | [] => (none, none, 0)
      | s :: ss =>
        let best := pyMaxBySnd s ss
        let threshold : ℝ := if q.length = 128 then m.confidence_threshold else 3 / 10
        if threshold ≤ best.2 then
          match m.known_face_ids.get? best.1, m.known_face_names.get? best.1 with
          | some sid, some nm => (some sid, some nm, best.2)
          | some _, none => (none, none, 0)
          | none, _ => (none, none, 0)
        else (none, none, best.2)

/-- Embedding of `FaceMatcher.add_known_face` (matcher.py lines 296-308).
The first argument is the result of the pluggable
`extract_face_features` call on the supplied image; `none` models a
failed extraction. -/
def add_known_face (m : FaceMatcher) (face_encoding : Option (List ℚ))
    (student_id : ℕ) (student_name : String) (metadata : Option Metadata) :
    FaceMatcher × Bool :=
  match face_encoding with
  | some enc =>
    ({ m with
        known_face_encodings := m.known_face_encodings ++ [enc],
        known_face_ids := m.known_face_ids ++ [student_id],
        known_face_names := m.known_face_names ++ [student_name],
        known_face_metadata := m.known_face_metadata ++ [metadata.getD []] }, true)
  | none => (m, false)

/-- The `AttendanceStatus` enum of models.py. -/
inductive AttendanceStatus where
  | PRESENT
  | LATE
  | ABSENT
deriving DecidableEq, Repr

/-- The `.value` string of an `AttendanceStatus` member. -/
def AttendanceStatus.value : AttendanceStatus → String
  | .PRESENT => "present"
  | .LATE => "late"
  | .ABSENT => "absent"

/-- The `SessionStatus` enum of models.py. -/
inductive SessionStatus where
  | SCHEDULED
  | ACTIVE
  | COMPLETED
deriving DecidableEq, Repr

/-- An `attendance_sessions` row (models.py lines 137-159).  `start_time`
and `end_time` are POSIX timestamps in seconds. -/
structure AttendanceSession where
  id : ℕ
  class_id : ℕ
  start_time : ℚ
  end_time : Option ℚ
  status : SessionStatus
  present_window_minutes : ℤ
  late_window_minutes : ℤ

/-- An `attendance_records` row (models.py lines 161-188), restricted to
the columns the pipeline reads or writes. -/
structure AttendanceRecord where
  session_id : ℕ
  student_id : ℕ
  status : AttendanceStatus
  detected_at : ℚ
  confidence_score : ℝ
  manual_override : Bool

/-- One entry of `recognition_cache[session_id]` (attendance.py line 81):
a dict `{box, id, name, conf, timestamp}`. -/
structure CacheEntry where
  box : Box
  id : ℕ
  name : String
  conf : ℝ
  timestamp : ℚ

/-- Persistent server state touched by `process_frame`: the attendance
records table, the sessions table (keyed by id; `none` models a missing
row) and the global `recognition_cache` dict, whose missing keys read as
the empty list. -/
structure ServerState where
  records : List AttendanceRecord
  sessions : ℕ → Option AttendanceSession
  recognition_cache : ℕ → List CacheEntry

/-- Python truthiness of the resolved student id (`if student_id:`): an
id is truthy when present and nonzero. -/
def truthyId : Option ℕ → Bool
  | none => false
  | some n => n != 0

/-- Python truthiness of the resolved name (`if name ...:`). -/
def truthyName : Option String → Bool
  | none => false
  | some s => s != ""

/-- Python `int(...)` applied to a float: truncation toward zero. -/
noncomputable def pyInt (x : ℝ) : ℤ :=
  if 0 ≤ x then ⌊x⌋ else ⌈x⌉

/-- One element of the `recognitions` response list assembled at
attendance.py lines 272-280. -/
structure Recognition where
  bounding_box : Box
  student_id : Option ℕ
  student_name : Option String
  confidence : ℤ
  status : String
  frame_width : ℕ
  frame_height : ℕ

/-- Builds one response element (attendance.py lines 272-280). -/
noncomputable def mkRecognition (box : Box) (sid : Option ℕ) (nm : Option String)
    (mc : ℝ) (status : String) (w h : ℕ) : Recognition :=
  { bounding_box := box
    student_id := sid
    student_name := nm
    confidence := pyInt (mc * 100)
    status := status
    frame_width := w
    frame_height := h }

/-- Storage-level insert into `attendance_records`, modelling the
`unique_session_student` constraint (models.py line 184): an insert whose
`(session_id, student_id)` pair already has a row fails with an
integrity error (`none`). -/
def dbInsert (recs : List AttendanceRecord) (r : AttendanceRecord) :
    Option (List AttendanceRecord) :=
  if recs.any (fun x => x.session_id == r.session_id && x.student_id == r.student_id) then none
  else some (recs ++ [r])

/-- Session window policy (attendance.py lines 233-252): elapsed minutes
within the present window give PRESENT, strictly past it but within the
late window give LATE, past both give ABSENT, each boundary counting as
inside. -/
def classifyStatus (session_obj : AttendanceSession) (elapsed_minutes : ℚ) :
    AttendanceStatus :=
  if elapsed_minutes ≤ (session_obj.present_window_minutes : ℚ) then
    AttendanceStatus.PRESENT
  else if elapsed_minutes ≤
      ((session_obj.present_window_minutes : ℚ) + (session_obj.late_window_minutes : ℚ)) then
    AttendanceStatus.LATE
  else AttendanceStatus.ABSENT

/-- Recorder logic of `process_frame` (attendance.py lines 214-270) for a
detection resolved to `student_id`: look up an existing record for the
pair, otherwise classify `elapsed` against the session's windows and
insert when inside them.  Returns the updated records with the
per-detection status string, or `none` when the code would raise (missing
session row, or an integrity error from the storage constraint). -/
def recordAttendance (sessions : ℕ → Option AttendanceSession)
    (records : List AttendanceRecord) (session_id : ℕ) (now : ℚ)
    (student_id : ℕ) (match_conf : ℝ) :
    Option (List AttendanceRecord × String) :=
  match records.find? (fun r => r.session_id == session_id && r.student_id == student_id) with
  | some existing => some (records, existing.status.value)
  | none =>
    match sessions session_id with
    | none => none
    | some session_obj =>
      let elapsed_minutes : ℚ := (now - session_obj.start_time) / 60
      let new_status := classifyStatus session_obj elapsed_minutes
      if new_status ≠ AttendanceStatus.ABSENT then
        match dbInsert records
            { session_id := session_id
              student_id := student_id
              status := new_status
              detected_at := now
              confidence_score := match_conf
              manual_override := false } with
        | some recs => some (recs, new_status.value)
        | none => none
      else some (records, "absent")

/-- Accumulator of the per-detection loop of `process_frame`.  `live` is
the mutable list object `recognition_cache[session_id]`; `newRefs` is
`new_cache_entries`, where a cache hit appends an alias of the live entry
(`Sum.inl` index) and a fresh recognition appends a new dict (`Sum.inr`).
`err` records that an exception escaped the loop body. -/
structure FrameLoopState where
  live : List CacheEntry
  newRefs : List (ℕ ⊕ CacheEntry)
  records : List AttendanceRecord
  recognitions : List Recognition
  err : Bool

/-- Cache lookup for one detection (attendance.py lines 148-155): the
first live entry whose IOU with the detection box exceeds 0.6. -/
def findCachedIdx (box : Box) (live : List CacheEntry) : Option ℕ :=
  live.findIdx? (fun e => 6 / 10 < calculate_iou box e.box)

/-- Shared tail of the per-detection loop body (attendance.py lines
211-280): record attendance when the detection resolved to a truthy name
and id, then append the response element. -/
noncomputable def finishDetection (sessions : ℕ → Option AttendanceSession)
    (session_id : ℕ) (now : ℚ) (w h : ℕ) (st : FrameLoopState) (box : Box)
    (sid : Option ℕ) (nm : Option String) (mc : ℝ) : FrameLoopState :=
  if truthyName nm && truthyId sid then
    match recordAttendance sessions st.records session_id now (sid.getD 0) mc with
    | none => { st with err := true }
    | some (recs, status) =>
      { st with
          records := recs
          recognitions := st.recognitions ++ [mkRecognition box sid nm mc status w h] }
  else
    { st with recognitions := st.recognitions ++ [mkRecognition box sid nm mc "unknown" w h] }

/-- Loop body of `process_frame` for one detected face (attendance.py
lines 146-280).  A cache hit refreshes the live entry in place and
appends an alias of it to `new_cache_entries`; a miss consults the
pluggable extractor and then the matcher, applies the pipeline-level
minimum confidence, and caches only a truthy identification.  Once an
exception has escaped (`err`), the remaining iterations never run. -/
noncomputable def processDetection (matcher : FaceMatcher)
    (extract : Box → Option (List ℚ)) (sessions : ℕ → Option AttendanceSession)
    (min_conf : ℝ) (session_id : ℕ) (now : ℚ) (w h : ℕ)
    (st : FrameLoopState) (face : Box × ℚ) : FrameLoopState :=
  if st.err then st
  else
    let box := face.1
    match findCachedIdx box st.live with
    | some i =>
      match st.live.get? i with
      | none => st
      | some e =>
        let live := st.live.set i { e with timestamp := now, box := box }
        finishDetection sessions session_id now w h
          { st with live := live, newRefs := st.newRefs ++ [Sum.inl i] }
          box (some e.id) (some e.name) e.conf
    | none =>
      match extract box with
      | none => st
      | some enc =>
        let r := recognize_face matcher (some enc)
        let mc := r.2.2
        let sid := if mc < min_conf then none else r.1
        let nm := if mc < min_conf then none else r.2.1
        let newRefs :=
          if truthyId sid then
            st.newRefs ++ [Sum.inr
              { box := box, id := sid.getD 0, name := nm.getD "", conf := mc, timestamp := now }]
          else st.newRefs
        finishDetection sessions session_id now w h
          { st with newRefs := newRefs } box sid nm mc

/-- Pre-lookup eviction (attendance.py lines 139-142): keep the entries
strictly younger than half a second. -/
def evictCache (entries : List CacheEntry) (now : ℚ) : List CacheEntry :=
  entries.filter (fun e => now - e.timestamp < 1 / 2)

/-- Resolves one `new_cache_entries` element against the final live
list: an alias of a live entry reads the entry's final state (in-place
updates included), a fresh dict is taken as is. -/
def resolveRef (live : List CacheEntry) (r : ℕ ⊕ CacheEntry) : Option CacheEntry :=
  match r with
  | Sum.inl i => live.get? i
  | Sum.inr e => some e

/-- Resolves `new_cache_entries` at the end of the frame. -/
def resolveRefs (live : List CacheEntry) (refs : List (ℕ ⊕ CacheEntry)) :
    List CacheEntry :=
  refs.filterMap (resolveRef live)

/-- Invariant of the per-detection loop: every pending cache reference
resolves (against the current live list) to an entry stamped with the
frame time.  Both reference kinds are only ever created with the current
timestamp, and in-place refreshes keep it current. -/
def cacheFresh (now : ℚ) (st : FrameLoopState) : Prop :=
  ∀ r ∈ st.newRefs, ∀ e, resolveRef st.live r = some e → e.timestamp = now

/-- Points the `recognition_cache` dict key `sid` at `entries`. -/
def updateCache (c : ℕ → List CacheEntry) (sid : ℕ) (entries : List CacheEntry) :
    ℕ → List CacheEntry :=
  fun k => if k = sid then entries else c k

/-- The eviction step followed by the per-detection loop of
`process_frame` (attendance.py lines 139-280), named so that the
handler's result can be reasoned about by cases on the final loop
state. -/
noncomputable def frameFold (matcher : FaceMatcher)
    (extract : Box → Option (List ℚ)) (sessions : ℕ → Option AttendanceSession)
    (min_conf : ℝ) (session_id : ℕ) (now : ℚ) (w h : ℕ)
    (records0 : List AttendanceRecord) (cache0 : List CacheEntry)
    (faces : List (Box × ℚ)) : FrameLoopState :=
  faces.foldl (processDetection matcher extract sessions min_conf session_id now w h)
    { live := evictCache cache0 now, newRefs := [], records := records0,
      recognitions := [], err := false }

/-- Embedding of the `process_frame` handler (attendance.py lines
105-292) after image decoding: evict stale cache entries, run the
per-detection loop, then replace the session's cache slice with
`new_cache_entries`.  Returns the new server state together with
`some recognitions` on success; on an exception the handler returns the
500 path (`none`) and the cache keeps the live list as already mutated,
since line 139 reassigned it before the loop. -/
noncomputable def process_frame (matcher : FaceMatcher)
    (extract : Box → Option (List ℚ)) (min_conf : ℝ) (state : ServerState)
    (session_id : ℕ) (now : ℚ) (faces : List (Box × ℚ)) (w h : ℕ) :
    ServerState × Option (List Recognition) :=
  let final := frameFold matcher extract state.sessions min_conf session_id now w h
    state.records (state.recognition_cache session_id) faces
  if final.err then
    ({ state with
        records := final.records
        recognition_cache := updateCache state.recognition_cache session_id final.live },
      none)
  else
    ({ state with
        records := final.records
        recognition_cache := updateCache state.recognition_cache session_id
          (resolveRefs final.live final.newRefs) },
      some final.recognitions)

/-- Session-completion transition of `update_session` (attendance.py
lines 419-427): an already-completed session is left untouched, otherwise
the status becomes COMPLETED and `end_time` is set. -/
def complete_session (s : AttendanceSession) (now : ℚ) : AttendanceSession :=
  if s.status = SessionStatus.COMPLETED then s
  else { s with status := SessionStatus.COMPLETED, end_time := some now }

/-- Well-formedness of the matcher store: the four parallel arrays have
equal lengths (the invariant `add_known_face` maintains and
`recognize_face` relies on for its indexed lookups). -/
def storeWF (m : FaceMatcher) : Prop :=
  m.known_face_ids.length = m.known_face_encodings.length ∧
  m.known_face_names.length = m.known_face_encodings.length ∧
  m.known_face_metadata.length = m.known_face_encodings.length

/-- At most one attendance record per `(session_id, student_id)` pair:
the property the `unique_session_student` constraint enforces. -/
def uniquePairs (recs : List AttendanceRecord) : Prop :=
  (recs.map (fun r => (r.session_id, r.student_id))).Nodup

/-- Sample session used by concrete witnesses: started at timestamp 0
with a 5-minute present window and a 15-minute late window. -/
def sessEx : AttendanceSession :=
  { id := 1, class_id := 2, start_time := 0, end_time := none,
    status := SessionStatus.ACTIVE, present_window_minutes := 5,
    late_window_minutes := 15 }

/-- Sample sessions table holding only `sessEx` under key 1. -/
def sessionsEx : ℕ → Option AttendanceSession :=
  fun k => if k = 1 then some sessEx else none

/-- Empty loop accumulator used by concrete witnesses. -/
def stEx : FrameLoopState :=
  { live := [], newRefs := [], records := [], recognitions := [], err := false }

/-- Sample detection box used by concrete witnesses. -/
def boxEx : Box := { x1 := 10, y1 := 10, x2 := 50, y2 := 50 }

/-- Sample matcher store with no known faces. -/
noncomputable def matcherEx : FaceMatcher :=
  { tolerance := 2 / 5, confidence_threshold := 7 / 10,
    known_face_encodings := [], known_face_ids := [],
    known_face_names := [], known_face_metadata := [] }

/-- Rewrites the stored status of one session row, leaving every other
field and every other part of the server state untouched.  Used to state
that `process_frame` never consults the session status. -/
def setSessionStatus (state : ServerState) (sid : ℕ) (v : SessionStatus) :
    ServerState :=
  { state with
      sessions := fun k =>
        if k = sid then (state.sessions k).map (fun s => { s with status := v })
        else state.sessions k }

/-- Cache entry fixture: identity 1 under a box overlapping `boxC4` at
IOU 4/5. -/
noncomputable def entryA : CacheEntry :=
  { box := { x1 := 0, y1 := 0, x2 := 10, y2 := 8 }, id := 1, name := "A",
    conf := 0, timestamp := 100 }

/-- Cache entry fixture: identity 2 under exactly the box `boxC4`
(IOU 1). -/
noncomputable def entryB : CacheEntry :=
  { box := { x1 := 0, y1 := 0, x2 := 10, y2 := 10 }, id := 2, name := "B",
    conf := 0, timestamp := 100 }

/-- Detection box fixture for the cache-order counterexample. -/
def boxC4 : Box := { x1 := 0, y1 := 0, x2 := 10, y2 := 10 }

/-- Fresh cache entry for student 7, aged 0.2 s at timestamp 100. -/
noncomputable def entryC5 : CacheEntry :=
  { box := boxEx, id := 7, name := "A", conf := 0, timestamp := 499 / 5 }

/-- Server state whose only session (key 1) has been COMPLETED through
`update_session`, with a live cache entry for student 7 and no records. -/
noncomputable def stateC5 : ServerState :=
  { records := []
    sessions := fun k => if k = 1 then some (complete_session sessEx 50) else none
    recognition_cache := fun k => if k = 1 then [entryC5] else [] }

/-- Server state whose session-1 cache holds an entry aged exactly 0.5 s
and an entry aged 0.1 s at timestamp 100. -/
noncomputable def stateC7 : ServerState :=
  { records := []
    sessions := sessionsEx
    recognition_cache := fun k =>
      if k = 1 then
        [{ box := boxEx, id := 1, name := "A", conf := 0, timestamp := 199 / 2 },
         { box := boxEx, id := 2, name := "B", conf := 0, timestamp := 999 / 10 }]
      else [] }

/-- Matcher store holding a single 2-dimensional encoding, scored by
cosine similarity. -/
noncomputable def matcherC9 : FaceMatcher :=
  { tolerance := 2 / 5, confidence_threshold := 7 / 10,
    known_face_encodings := [[-1, 0]], known_face_ids := [5],
    known_face_names := ["E"], known_face_metadata := [[]] }

/-- Matcher store with one 128-dimensional encoding and the acceptance
threshold set to 1, so that a zero-distance query sits exactly on the
accept boundary. -/
noncomputable def matcher128 : FaceMatcher :=
  { tolerance := 2 / 5, confidence_threshold := 1,
    known_face_encodings := [List.replicate 128 0],
    known_face_ids := [5], known_face_names := ["E"],
    known_face_metadata := [[]] }

/-- Matcher store with two identical 128-dimensional encodings, so any
query scores both candidates identically. -/
noncomputable def matcherTie : FaceMatcher :=
  { tolerance := 2 / 5, confidence_threshold := 7 / 10,
    known_face_encodings := [List.replicate 128 0, List.replicate 128 0],
    known_face_ids := [1, 2], known_face_names := ["A", "B"],
    known_face_metadata := [[], []] }

/-- Server state with no records and an empty recognition cache. -/
noncomputable def stateC9 : ServerState :=
  { records := [], sessions := sessionsEx, recognition_cache := fun _ => [] }

/-- All live cache entries carry a match confidence in `[-1, 1]`, the
range `recognize_face` can produce. -/
def confBounded (st : FrameLoopState) : Prop :=
  ∀ e ∈ st.live, -1 ≤ e.conf ∧ e.conf ≤ 1

/-- Every response element so far has one of the four status strings and
an integer confidence within `[-100, 100]`. -/
def respOK (st : FrameLoopState) : Prop :=
  ∀ r ∈ st.recognitions,
    (r.status = "present" ∨ r.status = "late" ∨ r.status = "absent" ∨
      r.status = "unknown") ∧
    -100 ≤ r.confidence ∧ r.confidence ≤ 100

/-!  Theorems.  Each claim theorem carries the claim id in its doc
comment; helper lemmas are shared and never named after a claim. -/

/-- Helper: a `find?` miss on the record key makes the storage-level
duplicate check of `dbInsert` come out false. -/
theorem any_key_false_of_find?_none {recs : List AttendanceRecord}
    {session_id student_id : ℕ}
    (h : recs.find? (fun r => r.session_id == session_id && r.student_id == student_id)
      = none) :
    recs.any (fun r => r.session_id == session_id && r.student_id == student_id) = false := by
  rw [List.any_eq_false]
  intro x hx
  exact List.find?_eq_none.mp h x hx

/-- C10: `add_known_face` is atomic on the store.  A successful
extraction appends exactly one element to each of the four parallel
arrays and returns `true`; a failed extraction leaves all four unchanged
and returns `false`; equal lengths of the four arrays are preserved
either way. -/
theorem add_known_face_atomic (m : FaceMatcher) (enc? : Option (List ℚ))
    (sid : ℕ) (nm : String) (md : Option Metadata) (hwf : storeWF m) :
    (enc? = none → add_known_face m enc? sid nm md = (m, false)) ∧
    (∀ e, enc? = some e →
      (add_known_face m enc? sid nm md).1.known_face_encodings
          = m.known_face_encodings ++ [e] ∧
      (add_known_face m enc? sid nm md).1.known_face_ids = m.known_face_ids ++ [sid] ∧
      (add_known_face m enc? sid nm md).1.known_face_names = m.known_face_names ++ [nm] ∧
      (add_known_face m enc? sid nm md).1.known_face_metadata
          = m.known_face_metadata ++ [md.getD []] ∧
      (add_known_face m enc? sid nm md).2 = true) ∧
    storeWF (add_known_face m enc? sid nm md).1 := by
  obtain ⟨h1, h2, h3⟩ := hwf
  refine ⟨?_, ?_, ?_⟩
  · intro h
    subst h
    rfl
  · intro e he
    subst he
    exact ⟨rfl, rfl, rfl, rfl, rfl⟩
  · cases enc? with
    | none => exact ⟨h1, h2, h3⟩
    | some e =>
      refine ⟨?_, ?_, ?_⟩ <;>
        simp [add_known_face, storeWF, List.length_append, h1, h2, h3]

/-- Witness for C10 at a concrete input: adding one face to the empty
store succeeds. -/
theorem add_known_face_atomic_witness :
    storeWF matcherEx ∧
    (add_known_face matcherEx (some [1, 2]) 3 "A" none).2 = true := by
  refine ⟨⟨rfl, rfl, rfl⟩, ?_⟩
  exact ((add_known_face_atomic matcherEx (some [1, 2]) 3 "A" none
    ⟨rfl, rfl, rfl⟩).2.1 [1, 2] rfl).2.2.2.2

/-- C2: window classification of a matched detection with no existing
record (attendance.py lines 222-268).  With
`elapsed = (now - start_time) / 60`: within the present window the
recorder inserts a PRESENT record and reports "present"; strictly past
it but within the late window it inserts a LATE record and reports
"late"; past both windows it writes nothing and reports "absent".
Both window boundaries count as inside. -/
theorem window_policy_boundaries (sessions : ℕ → Option AttendanceSession)
    (s : AttendanceSession) (st : FrameLoopState) (session_id : ℕ) (now : ℚ)
    (sid : ℕ) (nm : String) (mc : ℝ) (box : Box) (w h : ℕ)
    (hsid : sid ≠ 0) (hnm : nm ≠ "")
    (hlw : 0 < s.late_window_minutes)
    (hsess : sessions session_id = some s)
    (hnone : st.records.find?
      (fun r => r.session_id == session_id && r.student_id == sid) = none) :
    ((now - s.start_time) / 60 ≤ (s.present_window_minutes : ℚ) →
      finishDetection sessions session_id now w h st box (some sid) (some nm) mc =
        { st with
            records := st.records ++
              [{ session_id := session_id, student_id := sid,
                 status := AttendanceStatus.PRESENT, detected_at := now,
                 confidence_score := mc, manual_override := false }]
            recognitions := st.recognitions ++
              [mkRecognition box (some sid) (some nm) mc "present" w h] }) ∧
    ((s.present_window_minutes : ℚ) < (now - s.start_time) / 60 →
      (now - s.start_time) / 60
        ≤ (s.present_window_minutes : ℚ) + (s.late_window_minutes : ℚ) →
      finishDetection sessions session_id now w h st box (some sid) (some nm) mc =
        { st with
            records := st.records ++
              [{ session_id := session_id, student_id := sid,
                 status := AttendanceStatus.LATE, detected_at := now,
                 confidence_score := mc, manual_override := false }]
            recognitions := st.recognitions ++
              [mkRecognition box (some sid) (some nm) mc "late" w h] }) ∧
    ((s.present_window_minutes : ℚ) + (s.late_window_minutes : ℚ)
        < (now - s.start_time) / 60 →
      finishDetection sessions session_id now w h st box (some sid) (some nm) mc =
        { st with
            recognitions := st.recognitions ++
              [mkRecognition box (some sid) (some nm) mc "absent" w h] }) := by
  have htruthy : (truthyName (some nm) && truthyId (some sid)) = true := by
    simp [truthyName, truthyId, hnm, hsid]
  have hany := any_key_false_of_find?_none hnone
  refine ⟨fun hp => ?_, fun hp hl => ?_, fun hout => ?_⟩
  · simp [finishDetection, htruthy, recordAttendance, classifyStatus, hnone, hsess, hp,
      dbInsert, hany, AttendanceStatus.value]
  · simp [finishDetection, htruthy, recordAttendance, classifyStatus, hnone, hsess,
      not_le.mpr hp, hl, dbInsert, hany, AttendanceStatus.value]
  · have hlwQ : (0 : ℚ) < (s.late_window_minutes : ℚ) := by exact_mod_cast hlw
    have h1 : ¬ (now - s.start_time) / 60 ≤ (s.present_window_minutes : ℚ) := by
      push_neg
      linarith
    have h2 : ¬ (now - s.start_time) / 60
        ≤ (s.present_window_minutes : ℚ) + (s.late_window_minutes : ℚ) :=
      not_le.mpr hout
    simp [finishDetection, htruthy, recordAttendance, classifyStatus, hnone, hsess, h1, h2]

/-- Witness for C2 at a concrete input: a student detected exactly at
the 5-minute present-window boundary (elapsed = 5.0) is recorded
PRESENT. -/
theorem window_policy_boundaries_witness :
    finishDetection sessionsEx 1 300 640 480 stEx boxEx (some 7) (some "A") 1 =
      { stEx with
          records := stEx.records ++
            [{ session_id := 1, student_id := 7,
               status := AttendanceStatus.PRESENT, detected_at := 300,
               confidence_score := 1, manual_override := false }]
          recognitions := stEx.recognitions ++
            [mkRecognition boxEx (some 7) (some "A") 1 "present" 640 480] } :=
  (window_policy_boundaries sessionsEx sessEx stEx 1 300 7 "A" 1 boxEx 640 480
    (by decide) (by decide) (by decide) (by rfl) (by rfl)).1 (by norm_num [sessEx])

/-- C4 counterexample: with two live entries both overlapping the
detection at IOU above 0.6, the loop resolves the detection to the
FIRST entry in cache order (identity 1, IOU 4/5), not to the
highest-IOU entry (identity 2, IOU 1). -/
theorem cache_hit_not_highest_iou :
    calculate_iou boxC4 entryA.box = 4 / 5 ∧
    calculate_iou boxC4 entryB.box = 1 ∧
    (4 : ℚ) / 5 < 1 ∧
    (processDetection matcherEx (fun _ => none) sessionsEx 0 1 100 640 480
      { live := [entryA, entryB], newRefs := [],
        records := [⟨1, 1, AttendanceStatus.PRESENT, 0, 0, false⟩],
        recognitions := [], err := false }
      (boxC4, 9 / 10)).recognitions.map (fun r => (r.student_id, r.status))
      = [(some 1, "present")] := by
  refine ⟨by norm_num [calculate_iou, boxC4, entryA], by norm_num [calculate_iou, boxC4, entryB],
    by norm_num, ?_⟩
  have hfind : findCachedIdx boxC4 [entryA, entryB] = some 0 := by
    norm_num [findCachedIdx, List.findIdx?, calculate_iou, boxC4, entryA, entryB]
  simp only [processDetection]
  rw [hfind]
  simp [entryA, finishDetection, truthyName, truthyId, recordAttendance,
    List.find?, mkRecognition, AttendanceStatus.value]

/-- C7 counterexample: with an empty detection list, the cache entry
aged exactly 0.5 s (which the claim says only "exceeding" ages evict)
and the cache entry aged only 0.1 s (which the claim says remains
available for the next frame) are both gone after the frame. -/
theorem young_entry_dropped_after_frame :
    (100 : ℚ) - 199 / 2 = 1 / 2 ∧
    (100 : ℚ) - 999 / 10 < 1 / 2 ∧
    (process_frame matcherEx (fun _ => none) 0 stateC7 1 100 [] 640 480).1.recognition_cache 1
      = [] := by
  refine ⟨by norm_num, by norm_num, ?_⟩
  simp [process_frame, frameFold, stateC7, resolveRefs, resolveRef, updateCache]

/-- C5 counterexample: a frame processed for a session already COMPLETED
by `update_session` still performs a cache-hit recognition, still writes
a PRESENT attendance record, and still mutates the session's tracking
cache (the entry's timestamp moves from 499/5 to the frame time 100). -/
theorem completed_session_still_processed :
    (complete_session sessEx 50).status = SessionStatus.COMPLETED ∧
    (process_frame matcherEx (fun _ => none) 0 stateC5 1 100 [(boxEx, 9 / 10)] 640 480).1.records
      = [⟨1, 7, AttendanceStatus.PRESENT, 100, 0, false⟩] ∧
    (process_frame matcherEx (fun _ => none) 0 stateC5 1 100 [(boxEx, 9 / 10)] 640 480).1.recognition_cache 1
      = [{ box := boxEx, id := 7, name := "A", conf := 0, timestamp := 100 }] := by
  have hfind : findCachedIdx boxEx
      [{ box := boxEx, id := 7, name := "A", conf := 0, timestamp := 499 / 5 }] = some 0 := by
    norm_num [findCachedIdx, List.findIdx?, calculate_iou, boxEx]
  have hstep : processDetection matcherEx (fun _ => none)
      (fun k => if k = 1 then some (complete_session sessEx 50) else none) 0 1 100 640 480
      { live := [{ box := boxEx, id := 7, name := "A", conf := 0, timestamp := 499 / 5 }],
        newRefs := [], records := [], recognitions := [], err := false }
      (boxEx, 9 / 10)
      = { live := [{ box := boxEx, id := 7, name := "A", conf := 0, timestamp := 100 }],
          newRefs := [Sum.inl 0],
          records := [⟨1, 7, AttendanceStatus.PRESENT, 100, 0, false⟩],
          recognitions := [mkRecognition boxEx (some 7) (some "A") 0 "present" 640 480],
          err := false } := by
    simp only [processDetection]
    rw [hfind]
    simp [finishDetection, truthyName, truthyId, recordAttendance, classifyStatus,
      complete_session, sessEx, dbInsert, AttendanceStatus.value, List.find?]
    norm_num
    rw [if_neg (show ¬(AttendanceStatus.PRESENT = AttendanceStatus.ABSENT) by decide)]
  refine ⟨by simp [complete_session, sessEx], ?_, ?_⟩ <;>
  · simp only [process_frame, frameFold, stateC5, evictCache, entryC5]
    norm_num [List.filter]
    rw [hstep]
    simp [resolveRefs, resolveRef, updateCache]

/-- Helper: the record/response tail of the loop body changes neither
the live cache list nor the pending new-entry list. -/
theorem finishDetection_live_newRefs (sessions : ℕ → Option AttendanceSession)
    (session_id : ℕ) (now : ℚ) (w h : ℕ) (st : FrameLoopState) (box : Box)
    (sid : Option ℕ) (nm : Option String) (mc : ℝ) :
    (finishDetection sessions session_id now w h st box sid nm mc).live = st.live ∧
    (finishDetection sessions session_id now w h st box sid nm mc).newRefs = st.newRefs := by
  unfold finishDetection
  split
  · cases hr : recordAttendance sessions st.records session_id now (sid.getD 0) mc with
    | none => exact ⟨rfl, rfl⟩
    | some v =>
      obtain ⟨recs, status⟩ := v
      exact ⟨rfl, rfl⟩
  · exact ⟨rfl, rfl⟩

/-- Helper: the recorder only reads a session's start time and window
lengths, so two session tables agreeing on those three fields produce
identical recorder results. -/
theorem recordAttendance_congr (sess₁ sess₂ : ℕ → Option AttendanceSession)
    (hagree : ∀ k, (sess₁ k).map
        (fun s => (s.start_time, s.present_window_minutes, s.late_window_minutes))
      = (sess₂ k).map
        (fun s => (s.start_time, s.present_window_minutes, s.late_window_minutes)))
    (records : List AttendanceRecord) (session_id : ℕ) (now : ℚ)
    (student_id : ℕ) (mc : ℝ) :
    recordAttendance sess₁ records session_id now student_id mc
      = recordAttendance sess₂ records session_id now student_id mc := by
  unfold recordAttendance
  cases hf : records.find?
      (fun r => r.session_id == session_id && r.student_id == student_id) with
  | some r => rfl
  | none =>
    have h := hagree session_id
    cases h1 : sess₁ session_id with
    | none =>
      cases h2 : sess₂ session_id with
      | none => rfl
      | some s => rw [h1, h2] at h; simp at h
    | some s =>
      cases h2 : sess₂ session_id with
      | none => rw [h1, h2] at h; simp at h
      | some t =>
        rw [h1, h2] at h
        simp only [Option.map_some', Option.some.injEq, Prod.mk.injEq] at h
        obtain ⟨hst, hpw, hlw⟩ := h
        have hcs : classifyStatus s = classifyStatus t := by
          funext e
          simp only [classifyStatus, hpw, hlw]
        simp only [hst, hpw, hlw, hcs]

/-- Helper: the loop-body tail is likewise independent of everything in
the session row except the three fields the recorder reads. -/
theorem finishDetection_congr (sess₁ sess₂ : ℕ → Option AttendanceSession)
    (hagree : ∀ k, (sess₁ k).map
        (fun s => (s.start_time, s.present_window_minutes, s.late_window_minutes))
      = (sess₂ k).map
        (fun s => (s.start_time, s.present_window_minutes, s.late_window_minutes)))
    (session_id : ℕ) (now : ℚ) (w h : ℕ) (st : FrameLoopState) (box : Box)
    (sid : Option ℕ) (nm : Option String) (mc : ℝ) :
    finishDetection sess₁ session_id now w h st box sid nm mc
      = finishDetection sess₂ session_id now w h st box sid nm mc := by
  unfold finishDetection
  rw [recordAttendance_congr sess₁ sess₂ hagree st.records session_id now (sid.getD 0) mc]

/-- Helper: one loop iteration is independent of the session fields the
recorder does not read. -/
theorem processDetection_congr (sess₁ sess₂ : ℕ → Option AttendanceSession)
    (hagree : ∀ k, (sess₁ k).map
        (fun s => (s.start_time, s.present_window_minutes, s.late_window_minutes))
      = (sess₂ k).map
        (fun s => (s.start_time, s.present_window_minutes, s.late_window_minutes)))
    (m : FaceMatcher) (ex : Box → Option (List ℚ)) (min_conf : ℝ)
    (session_id : ℕ) (now : ℚ) (w h : ℕ) (st : FrameLoopState) (face : Box × ℚ) :
    processDetection m ex sess₁ min_conf session_id now w h st face
      = processDetection m ex sess₂ min_conf session_id now w h st face := by
  unfold processDetection
  simp only [finishDetection_congr sess₁ sess₂ hagree]

/-- Helper: the records the handler persists are the loop's final
records, whether or not an exception escaped. -/
theorem process_frame_records_eq (m : FaceMatcher) (ex : Box → Option (List ℚ))
    (min_conf : ℝ) (state : ServerState) (session_id : ℕ) (now : ℚ)
    (faces : List (Box × ℚ)) (w h : ℕ) :
    (process_frame m ex min_conf state session_id now faces w h).1.records
      = (frameFold m ex state.sessions min_conf session_id now w h
          state.records (state.recognition_cache session_id) faces).records := by
  simp only [process_frame]
  cases herr : (frameFold m ex state.sessions min_conf session_id now w h
      state.records (state.recognition_cache session_id) faces).err <;> simp [herr]

/-- Helper: the handler's stored cache slice, by cases on the error
flag. -/
theorem process_frame_cache_eq (m : FaceMatcher) (ex : Box → Option (List ℚ))
    (min_conf : ℝ) (state : ServerState) (session_id : ℕ) (now : ℚ)
    (faces : List (Box × ℚ)) (w h : ℕ) :
    (process_frame m ex min_conf state session_id now faces w h).1.recognition_cache
      = updateCache state.recognition_cache session_id
          (if (frameFold m ex state.sessions min_conf session_id now w h
                state.records (state.recognition_cache session_id) faces).err = true
            then (frameFold m ex state.sessions min_conf session_id now w h
                state.records (state.recognition_cache session_id) faces).live
            else resolveRefs
                (frameFold m ex state.sessions min_conf session_id now w h
                  state.records (state.recognition_cache session_id) faces).live
                (frameFold m ex state.sessions min_conf session_id now w h
                  state.records (state.recognition_cache session_id) faces).newRefs) := by
  simp only [process_frame]
  cases herr : (frameFold m ex state.sessions min_conf session_id now w h
      state.records (state.recognition_cache session_id) faces).err <;> simp [herr]

/-- Helper: the handler's response, by cases on the error flag. -/
theorem process_frame_response_eq (m : FaceMatcher) (ex : Box → Option (List ℚ))
    (min_conf : ℝ) (state : ServerState) (session_id : ℕ) (now : ℚ)
    (faces : List (Box × ℚ)) (w h : ℕ) :
    (process_frame m ex min_conf state session_id now faces w h).2
      = (if (frameFold m ex state.sessions min_conf session_id now w h
              state.records (state.recognition_cache session_id) faces).err = true
          then none
          else some (frameFold m ex state.sessions min_conf session_id now w h
              state.records (state.recognition_cache session_id) faces).recognitions) := by
  simp only [process_frame]
  cases herr : (frameFold m ex state.sessions min_conf session_id now w h
      state.records (state.recognition_cache session_id) faces).err <;> simp [herr]

/-- Helper: the whole loop is independent of the session fields the
recorder does not read. -/
theorem frameFold_congr (sess₁ sess₂ : ℕ → Option AttendanceSession)
    (hagree : ∀ k, (sess₁ k).map
        (fun s => (s.start_time, s.present_window_minutes, s.late_window_minutes))
      = (sess₂ k).map
        (fun s => (s.start_time, s.present_window_minutes, s.late_window_minutes)))
    (m : FaceMatcher) (ex : Box → Option (List ℚ)) (min_conf : ℝ)
    (session_id : ℕ) (now : ℚ) (w h : ℕ) (records0 : List AttendanceRecord)
    (cache0 : List CacheEntry) (faces : List (Box × ℚ)) :
    frameFold m ex sess₁ min_conf session_id now w h records0 cache0 faces
      = frameFold m ex sess₂ min_conf session_id now w h records0 cache0 faces := by
  unfold frameFold
  rw [show processDetection m ex sess₁ min_conf session_id now w h
      = processDetection m ex sess₂ min_conf session_id now w h from
    funext fun st => funext fun face =>
      processDetection_congr sess₁ sess₂ hagree m ex min_conf session_id now w h st face]

/-- C5 (amended): `process_frame` performs no session-status check at
all.  Whatever status the session row carries — in particular COMPLETED
versus ACTIVE — the handler produces identical attendance records,
identical tracking-cache contents and an identical response, so frames
for a completed session are processed exactly like frames for an active
one rather than rejected or ignored. -/
theorem session_status_never_consulted (m : FaceMatcher)
    (ex : Box → Option (List ℚ)) (min_conf : ℝ) (state : ServerState)
    (sid : ℕ) (v₁ v₂ : SessionStatus) (now : ℚ) (faces : List (Box × ℚ)) (w h : ℕ) :
    (process_frame m ex min_conf (setSessionStatus state sid v₁) sid now faces w h).1.records
      = (process_frame m ex min_conf (setSessionStatus state sid v₂) sid now faces w h).1.records ∧
    (process_frame m ex min_conf (setSessionStatus state sid v₁) sid now faces w h).1.recognition_cache
      = (process_frame m ex min_conf (setSessionStatus state sid v₂) sid now faces w h).1.recognition_cache ∧
    (process_frame m ex min_conf (setSessionStatus state sid v₁) sid now faces w h).2
      = (process_frame m ex min_conf (setSessionStatus state sid v₂) sid now faces w h).2 := by
  have hagree : ∀ k, (((setSessionStatus state sid v₁).sessions) k).map
      (fun s => (s.start_time, s.present_window_minutes, s.late_window_minutes))
      = (((setSessionStatus state sid v₂).sessions) k).map
      (fun s => (s.start_time, s.present_window_minutes, s.late_window_minutes)) := by
    intro k
    by_cases hk : k = sid
    · subst hk
      cases h : state.sessions k <;> simp [setSessionStatus, h]
    · simp [setSessionStatus, hk]
  have hF : frameFold m ex (setSessionStatus state sid v₁).sessions min_conf
        sid now w h (setSessionStatus state sid v₁).records
        ((setSessionStatus state sid v₁).recognition_cache sid) faces
      = frameFold m ex (setSessionStatus state sid v₂).sessions min_conf
        sid now w h (setSessionStatus state sid v₂).records
        ((setSessionStatus state sid v₂).recognition_cache sid) faces :=
    frameFold_congr _ _ hagree m ex min_conf sid now w h _ _ faces
  refine ⟨?_, ?_, ?_⟩
  · rw [process_frame_records_eq, process_frame_records_eq, hF]
  · rw [process_frame_cache_eq, process_frame_cache_eq, hF]
    exact rfl
  · rw [process_frame_response_eq, process_frame_response_eq, hF]

/-- C4 (amended): the cache lookup resolves a detection to the FIRST
live entry, in cache-list order, whose IOU with the detection box
strictly exceeds 0.6 — not to the highest-IOU such entry.  Entries at
IOU of 0.6 or below are never hits, a lookup returns a hit whenever some
entry qualifies, and on a hit the loop body neither consults the feature
extractor or matcher (its result is independent of them and of the
pipeline threshold) nor resolves to anything but that entry's cached
identity. -/
theorem cache_hit_uses_first_overlap (box : Box) :
    (∀ (live : List CacheEntry) i, findCachedIdx box live = some i →
      ∃ e, live.get? i = some e ∧ 6 / 10 < calculate_iou box e.box ∧
        ∀ j e', j < i → live.get? j = some e' → calculate_iou box e'.box ≤ 6 / 10) ∧
    (∀ (live : List CacheEntry), findCachedIdx box live = none →
      ∀ e, e ∈ live → calculate_iou box e.box ≤ 6 / 10) ∧
    (∀ (live : List CacheEntry) e, e ∈ live → 6 / 10 < calculate_iou box e.box →
      findCachedIdx box live ≠ none) ∧
    (∀ (st : FrameLoopState) i e (m₁ m₂ : FaceMatcher)
        (ex₁ ex₂ : Box → Option (List ℚ)) (mc₁ mc₂ : ℝ)
        (sessions : ℕ → Option AttendanceSession) (session_id : ℕ) (now : ℚ)
        (w h : ℕ) (dconf : ℚ),
      st.err = false → findCachedIdx box st.live = some i → st.live.get? i = some e →
      processDetection m₁ ex₁ sessions mc₁ session_id now w h st (box, dconf)
          = processDetection m₂ ex₂ sessions mc₂ session_id now w h st (box, dconf) ∧
      processDetection m₁ ex₁ sessions mc₁ session_id now w h st (box, dconf)
          = finishDetection sessions session_id now w h
              { st with live := st.live.set i { e with timestamp := now, box := box },
                        newRefs := st.newRefs ++ [Sum.inl i] }
              box (some e.id) (some e.name) e.conf) := by
  refine ⟨?_, ?_, ?_, ?_⟩
  · intro live i h
    rw [findCachedIdx, List.findIdx?_eq_some_iff_getElem] at h
    obtain ⟨hlt, hp, hj⟩ := h
    refine ⟨live[i], by simp [List.get?_eq_getElem?, List.getElem?_eq_getElem hlt], by simpa using hp, ?_⟩
    intro j e' hji hj'
    have hjl : j < live.length := lt_trans hji hlt
    rw [List.get?_eq_getElem?, List.getElem?_eq_getElem hjl, Option.some.injEq] at hj'
    have := hj j hji
    rw [← hj']
    simpa [not_lt] using this
  · intro live h
    rw [findCachedIdx, List.findIdx?_eq_none_iff] at h
    intro e he
    simpa [not_lt] using h e he
  · intro live e he hgt hnone
    rw [findCachedIdx, List.findIdx?_eq_none_iff] at hnone
    have := hnone e he
    simp [hgt] at this
  · intro st i e m₁ m₂ ex₁ ex₂ mc₁ mc₂ sessions session_id now w h dconf herr hfind hget
    constructor <;>
      simp only [processDetection, herr, Bool.false_eq_true, if_false, hfind, hget]

/-- Witness for the amended C4 at a concrete input: the lookup over
`[entryA, entryB]` yields index 0, whose IOU with the query box exceeds
0.6, and no earlier entry qualifies. -/
theorem cache_hit_uses_first_overlap_witness :
    ∃ e, [entryA, entryB].get? 0 = some e ∧
      6 / 10 < calculate_iou boxC4 e.box ∧
      ∀ j e', j < 0 → [entryA, entryB].get? j = some e' →
        calculate_iou boxC4 e'.box ≤ 6 / 10 :=
  (cache_hit_uses_first_overlap boxC4).1 [entryA, entryB] 0
    (by norm_num [findCachedIdx, List.findIdx?, calculate_iou, boxC4, entryA, entryB])

/-- Helper: one loop iteration keeps every pending cache reference
resolving to an entry stamped with the frame time: refreshes and fresh
inserts both carry timestamp `now`, and in-place updates never write an
older timestamp. -/
theorem processDetection_cacheFresh (m : FaceMatcher) (ex : Box → Option (List ℚ))
    (sessions : ℕ → Option AttendanceSession) (min_conf : ℝ) (session_id : ℕ)
    (now : ℚ) (w h : ℕ) (st : FrameLoopState) (face : Box × ℚ)
    (hst : cacheFresh now st) :
    cacheFresh now (processDetection m ex sessions min_conf session_id now w h st face) := by
  obtain ⟨live, newRefs, records, recogs, err⟩ := st
  cases err with
  | true => simpa [processDetection] using hst
  | false =>
    cases hfind : findCachedIdx face.1 live with
    | some i =>
      cases hget : live[i]? with
      | none => simpa [processDetection, hfind, hget] using hst
      | some e =>
        have hi : i < live.length := by
          by_contra hi
          rw [List.getElem?_eq_none (by omega)] at hget
          cases hget
        simp only [processDetection, Bool.false_eq_true, if_false, hfind,
          List.get?_eq_getElem?, hget]
        intro r hr e' hres
        rw [(finishDetection_live_newRefs sessions session_id now w h _ _ _ _ _).2] at hr
        rw [(finishDetection_live_newRefs sessions session_id now w h _ _ _ _ _).1] at hres
        rcases List.mem_append.mp hr with hr' | hr'
        · cases r with
          | inr e'' =>
            have he'' : e'' = e' := by simpa [resolveRef] using hres
            subst he''
            exact hst _ hr' _ (by simp [resolveRef])
          | inl j =>
            by_cases hij : i = j
            · subst hij
              have he' : e' = { e with timestamp := now, box := face.1 } := by
                simp [resolveRef, List.get?_eq_getElem?, List.getElem?_set_self hi] at hres
                exact hres.symm
              rw [he']
            · have hres' : live.get? j = some e' := by
                simpa [resolveRef, List.get?_eq_getElem?,
                  List.getElem?_set_ne hij] using hres
              exact hst _ hr' _ (by simpa [resolveRef, List.get?_eq_getElem?] using hres')
        · have hr'' : r = Sum.inl i := by simpa using hr'
          subst hr''
          have he' : e' = { e with timestamp := now, box := face.1 } := by
            simp [resolveRef, List.get?_eq_getElem?, List.getElem?_set_self hi] at hres
            exact hres.symm
          rw [he']
    | none =>
      cases hex : ex face.1 with
      | none => simpa [processDetection, hfind, hex] using hst
      | some enc =>
        simp only [processDetection, Bool.false_eq_true, if_false, hfind, hex]
        by_cases htr : truthyId (if (recognize_face m (some enc)).2.2 < min_conf
            then none else (recognize_face m (some enc)).1) = true
        · simp only [htr, if_true]
          intro r hr e' hres
          rw [(finishDetection_live_newRefs sessions session_id now w h _ _ _ _ _).2] at hr
          rw [(finishDetection_live_newRefs sessions session_id now w h _ _ _ _ _).1] at hres
          rcases List.mem_append.mp hr with hr' | hr'
          · exact hst _ hr' _ (by simpa [resolveRef] using hres)
          · rw [List.mem_singleton] at hr'
            subst hr'
            simp [resolveRef] at hres
            rw [← hres]
        · simp only [htr, if_false]
          intro r hr e' hres
          rw [(finishDetection_live_newRefs sessions session_id now w h _ _ _ _ _).2] at hr
          rw [(finishDetection_live_newRefs sessions session_id now w h _ _ _ _ _).1] at hres
          exact hst _ hr _ hres

/-- Helper: the whole per-frame loop produces only frame-time-stamped
pending cache references. -/
theorem frameFold_cacheFresh (m : FaceMatcher) (ex : Box → Option (List ℚ))
    (sessions : ℕ → Option AttendanceSession) (min_conf : ℝ) (session_id : ℕ)
    (now : ℚ) (w h : ℕ) (records0 : List AttendanceRecord)
    (cache0 : List CacheEntry) (faces : List (Box × ℚ)) :
    cacheFresh now (frameFold m ex sessions min_conf session_id now w h
      records0 cache0 faces) := by
  unfold frameFold
  have h0 : cacheFresh now
      { live := evictCache cache0 now, newRefs := [], records := records0,
        recognitions := [], err := false } := by
    intro r hr
    cases hr
  have hgen : ∀ (init : FrameLoopState), cacheFresh now init →
      cacheFresh now (faces.foldl
        (processDetection m ex sessions min_conf session_id now w h) init) := by
    induction faces with
    | nil => exact fun init h => h
    | cons f fs ih =>
      intro init hinit
      exact ih _ (processDetection_cacheFresh m ex sessions min_conf session_id
        now w h init f hinit)
  exact hgen _ h0


/-- C7 (amended): before each frame's lookups, exactly those cache
entries whose age is at least 0.5 seconds are evicted (kept iff
`now - timestamp < 0.5`, so an age of exactly 0.5 is evicted too); and
at the end of the frame the session's cache is replaced by exactly the
entries referenced or created during that frame — a frame with no
detections empties the cache regardless of entry ages, and every entry
surviving a successful frame carries the frame timestamp. -/
theorem cache_eviction_and_replacement :
    (∀ (entries : List CacheEntry) (now : ℚ) (e : CacheEntry),
      e ∈ evictCache entries now ↔ e ∈ entries ∧ now - e.timestamp < 1 / 2) ∧
    (∀ (m : FaceMatcher) (ex : Box → Option (List ℚ)) (min_conf : ℝ)
        (state : ServerState) (session_id : ℕ) (now : ℚ) (w h : ℕ),
      (process_frame m ex min_conf state session_id now [] w h).1.recognition_cache
          session_id
        = []) ∧
    (∀ (m : FaceMatcher) (ex : Box → Option (List ℚ)) (min_conf : ℝ)
        (state : ServerState) (session_id : ℕ) (now : ℚ) (faces : List (Box × ℚ))
        (w h : ℕ) (rs : List Recognition),
      (process_frame m ex min_conf state session_id now faces w h).2 = some rs →
      ∀ e, e ∈ (process_frame m ex min_conf state session_id now
          faces w h).1.recognition_cache session_id →
        e.timestamp = now) := by
  refine ⟨?_, ?_, ?_⟩
  · intro entries now e
    simp [evictCache, List.mem_filter]
  · intro m ex min_conf state session_id now w h
    rw [process_frame_cache_eq]
    simp [frameFold, resolveRefs, updateCache]
  · intro m ex min_conf state session_id now faces w h rs hres e he
    rw [process_frame_response_eq] at hres
    rw [process_frame_cache_eq] at he
    by_cases herr : (frameFold m ex state.sessions min_conf session_id now w h
        state.records (state.recognition_cache session_id) faces).err = true
    · rw [if_pos herr] at hres
      cases hres
    · rw [if_neg herr] at he
      simp only [updateCache, if_pos rfl] at he
      obtain ⟨r, hr, hres2⟩ := List.mem_filterMap.mp he
      exact frameFold_cacheFresh m ex state.sessions min_conf session_id now w h
        state.records (state.recognition_cache session_id) faces r hr e hres2

/-- Witness for the amended C7 at a concrete input: an empty frame for
an empty cache succeeds, and every surviving entry (there are none)
carries the frame timestamp. -/
theorem cache_eviction_and_replacement_witness :
    (process_frame matcherEx (fun _ => none) 0
        { records := [], sessions := sessionsEx, recognition_cache := fun _ => [] }
        1 100 [] 640 480).2 = some [] ∧
    ∀ e, e ∈ (process_frame matcherEx (fun _ => none) 0
        { records := [], sessions := sessionsEx, recognition_cache := fun _ => [] }
        1 100 [] 640 480).1.recognition_cache 1 →
      e.timestamp = 100 := by
  have hres : (process_frame matcherEx (fun _ => none) 0
      { records := [], sessions := sessionsEx, recognition_cache := fun _ => [] }
      1 100 [] 640 480).2 = some [] := by
    simp [process_frame, frameFold, evictCache]
  exact ⟨hres, cache_eviction_and_replacement.2.2 matcherEx (fun _ => none) 0
    _ 1 100 [] 640 480 [] hres⟩

/-- Helper: with pairwise-distinct record keys, the recorder's existence
query returns exactly the member carrying the queried key. -/
theorem find?_key_of_mem (recs : List AttendanceRecord) (r : AttendanceRecord)
    (huniq : uniquePairs recs) (hmem : r ∈ recs) :
    recs.find? (fun x => x.session_id == r.session_id && x.student_id == r.student_id)
      = some r := by
  induction recs with
  | nil => cases hmem
  | cons x xs ih =>
    rw [uniquePairs, List.map_cons, List.nodup_cons] at huniq
    obtain ⟨hnotin, hnd⟩ := huniq
    rcases List.mem_cons.mp hmem with rfl | hmem2
    · rw [List.find?_cons_of_pos _ (by simp)]
    · by_cases hkey : x.session_id = r.session_id ∧ x.student_id = r.student_id
      · exact absurd (by
          rw [show (x.session_id, x.student_id) = (r.session_id, r.student_id) by
            rw [hkey.1, hkey.2]]
          exact List.mem_map_of_mem _ hmem2) hnotin
      · rw [List.find?_cons_of_neg _ (by
          simp only [Bool.and_eq_true, beq_iff_eq]
          exact fun hcon => hkey hcon)]
        exact ih hnd hmem2

/-- Helper: a successful storage insert preserves key uniqueness, since
the constraint check refuses duplicate keys. -/
theorem dbInsert_uniquePairs {recs recs' : List AttendanceRecord}
    {r : AttendanceRecord} (h : dbInsert recs r = some recs')
    (hu : uniquePairs recs) : uniquePairs recs' := by
  unfold dbInsert at h
  split at h
  · cases h
  · rename_i hany
    cases h
    rw [uniquePairs, List.map_append, List.map_singleton, List.nodup_append]
    refine ⟨hu, List.nodup_singleton _, ?_⟩
    intro a ha hb
    rw [List.mem_singleton] at hb
    subst hb
    obtain ⟨x, hx, hxk⟩ := List.mem_map.mp ha
    apply hany
    rw [List.any_eq_true]
    refine ⟨x, hx, ?_⟩
    have h1 : x.session_id = r.session_id := congrArg Prod.fst hxk
    have h2 : x.student_id = r.student_id := congrArg Prod.snd hxk
    simp [h1, h2]

/-- Helper: whatever the recorder returns, the resulting records keep
pairwise-distinct keys. -/
theorem recordAttendance_uniquePairs {sessions : ℕ → Option AttendanceSession}
    {records : List AttendanceRecord} {session_id : ℕ} {now : ℚ} {student : ℕ}
    {mc : ℝ} {recs' : List AttendanceRecord} {status : String}
    (h : recordAttendance sessions records session_id now student mc
      = some (recs', status))
    (hu : uniquePairs records) : uniquePairs recs' := by
  unfold recordAttendance at h
  cases hf : records.find?
      (fun r => r.session_id == session_id && r.student_id == student) with
  | some ex =>
    simp only [hf] at h
    cases h
    exact hu
  | none =>
    simp only [hf] at h
    cases hs : sessions session_id with
    | none => simp only [hs] at h; cases h
    | some s =>
      simp only [hs] at h
      cases hns : classifyStatus s ((now - s.start_time) / 60) with
      | PRESENT =>
        rw [hns, if_pos (by decide)] at h
        split at h
        · rename_i recs2 hdb
          cases h
          exact dbInsert_uniquePairs hdb hu
        · cases h
      | LATE =>
        rw [hns, if_pos (by decide)] at h
        split at h
        · rename_i recs2 hdb
          cases h
          exact dbInsert_uniquePairs hdb hu
        · cases h
      | ABSENT =>
        rw [hns, if_neg (by decide)] at h
        cases h
        exact hu

/-- Helper: the loop-body tail preserves key uniqueness of the records. -/
theorem finishDetection_uniquePairs (sessions : ℕ → Option AttendanceSession)
    (session_id : ℕ) (now : ℚ) (w h : ℕ) (st : FrameLoopState) (box : Box)
    (sid : Option ℕ) (nm : Option String) (mc : ℝ)
    (hu : uniquePairs st.records) :
    uniquePairs (finishDetection sessions session_id now w h st box sid nm mc).records := by
  unfold finishDetection
  split
  · cases hr : recordAttendance sessions st.records session_id now (sid.getD 0) mc with
    | none => exact hu
    | some v =>
      obtain ⟨recs, status⟩ := v
      exact recordAttendance_uniquePairs hr hu
  · exact hu

/-- Helper: one loop iteration preserves key uniqueness of the records. -/
theorem processDetection_uniquePairs (m : FaceMatcher) (ex : Box → Option (List ℚ))
    (sessions : ℕ → Option AttendanceSession) (min_conf : ℝ) (session_id : ℕ)
    (now : ℚ) (w h : ℕ) (st : FrameLoopState) (face : Box × ℚ)
    (hu : uniquePairs st.records) :
    uniquePairs (processDetection m ex sessions min_conf session_id now w h st face).records := by
  obtain ⟨live, newRefs, records, recogs, err⟩ := st
  cases err with
  | true => simpa [processDetection] using hu
  | false =>
    cases hfind : findCachedIdx face.1 live with
    | some i =>
      cases hget : live[i]? with
      | none => simpa [processDetection, hfind, List.get?_eq_getElem?, hget] using hu
      | some e =>
        simp only [processDetection, Bool.false_eq_true, if_false, hfind,
          List.get?_eq_getElem?, hget]
        exact finishDetection_uniquePairs sessions session_id now w h _ face.1
          (some e.id) (some e.name) e.conf hu
    | none =>
      cases hex : ex face.1 with
      | none => simpa [processDetection, hfind, hex] using hu
      | some enc =>
        simp only [processDetection, Bool.false_eq_true, if_false, hfind, hex]
        by_cases htr : truthyId (if (recognize_face m (some enc)).2.2 < min_conf
            then none else (recognize_face m (some enc)).1) = true <;>
          simp only [htr, if_true, if_false] <;>
          exact finishDetection_uniquePairs sessions session_id now w h _ face.1
            _ _ _ hu

/-- Helper: the whole per-frame loop preserves key uniqueness of the
records. -/
theorem frameFold_uniquePairs (m : FaceMatcher) (ex : Box → Option (List ℚ))
    (sessions : ℕ → Option AttendanceSession) (min_conf : ℝ) (session_id : ℕ)
    (now : ℚ) (w h : ℕ) (records0 : List AttendanceRecord)
    (cache0 : List CacheEntry) (faces : List (Box × ℚ))
    (hu : uniquePairs records0) :
    uniquePairs (frameFold m ex sessions min_conf session_id now w h
      records0 cache0 faces).records := by
  unfold frameFold
  have hgen : ∀ (init : FrameLoopState), uniquePairs init.records →
      uniquePairs ((faces.foldl
        (processDetection m ex sessions min_conf session_id now w h) init).records) := by
    induction faces with
    | nil => exact fun init hi => hi
    | cons f fs ih =>
      intro init hi
      exact ih _ (processDetection_uniquePairs m ex sessions min_conf session_id
        now w h init f hi)
  exact hgen _ hu

/-- C1: at most one attendance record ever exists per
`(session_id, student_id)` pair.  The storage-level insert refuses a
duplicate key (the `unique_session_student` constraint); a detection
resolving to a student who already has a record for the session leaves
the records untouched and reports the existing record's status; and the
whole handler preserves pairwise distinctness of the record keys. -/
theorem at_most_one_record_per_pair :
    (∀ (recs : List AttendanceRecord) (r : AttendanceRecord),
      dbInsert recs r = none ↔
        ∃ x ∈ recs, x.session_id = r.session_id ∧ x.student_id = r.student_id) ∧
    (∀ (sessions : ℕ → Option AttendanceSession) (now : ℚ)
        (w h : ℕ) (st : FrameLoopState) (box : Box) (r : AttendanceRecord)
        (mc : ℝ) (nm : String),
      uniquePairs st.records → r ∈ st.records →
      r.student_id ≠ 0 → nm ≠ "" →
      finishDetection sessions r.session_id now w h st box (some r.student_id)
          (some nm) mc
        = { st with recognitions := st.recognitions ++
            [mkRecognition box (some r.student_id) (some nm) mc r.status.value w h] }) ∧
    (∀ (m : FaceMatcher) (ex : Box → Option (List ℚ)) (min_conf : ℝ)
        (state : ServerState) (session_id : ℕ) (now : ℚ) (faces : List (Box × ℚ))
        (w h : ℕ),
      uniquePairs state.records →
      uniquePairs (process_frame m ex min_conf state session_id now faces w h).1.records) := by
  refine ⟨?_, ?_, ?_⟩
  · intro recs r
    unfold dbInsert
    split
    · rename_i hany
      simp only [List.any_eq_true, Bool.and_eq_true, beq_iff_eq] at hany
      obtain ⟨x, hx, h1, h2⟩ := hany
      exact ⟨fun _ => ⟨x, hx, h1, h2⟩, fun _ => rfl⟩
    · rename_i hany
      constructor
      · intro hcon
        cases hcon
      · rintro ⟨x, hx, h1, h2⟩
        exact absurd (by
          rw [List.any_eq_true]
          exact ⟨x, hx, by simp [h1, h2]⟩) hany
  · intro sessions now w h st box r mc nm hu hmem hnz hnm
    have htruthy : (truthyName (some nm) && truthyId (some r.student_id)) = true := by
      simp [truthyName, truthyId, hnm, hnz]
    have hfind := find?_key_of_mem st.records r hu hmem
    unfold finishDetection
    rw [if_pos (by rw [htruthy])]
    rw [show (some r.student_id).getD 0 = r.student_id from rfl]
    unfold recordAttendance
    rw [hfind]
  · intro m ex min_conf state session_id now faces w h hu
    rw [process_frame_records_eq]
    exact frameFold_uniquePairs m ex state.sessions min_conf session_id now w h
      state.records (state.recognition_cache session_id) faces hu

/-- Witness for C1 at a concrete input: with a PRESENT record already
stored for (session 1, student 7), a second detection of student 7
appends only a response element with the stored status and writes no
record. -/
theorem at_most_one_record_per_pair_witness :
    finishDetection sessionsEx 1 300 640 480
        { live := [], newRefs := [],
          records := [⟨1, 7, AttendanceStatus.PRESENT, 0, 0, false⟩],
          recognitions := [], err := false }
        boxEx (some 7) (some "A") 1
      = { live := [], newRefs := [],
          records := [⟨1, 7, AttendanceStatus.PRESENT, 0, 0, false⟩],
          recognitions := [mkRecognition boxEx (some 7) (some "A") 1 "present" 640 480],
          err := false } := by
  have happ := at_most_one_record_per_pair.2.1 sessionsEx 300 640 480
    { live := [], newRefs := [],
      records := [⟨1, 7, AttendanceStatus.PRESENT, 0, 0, false⟩],
      recognitions := [], err := false }
    boxEx ⟨1, 7, AttendanceStatus.PRESENT, 0, 0, false⟩ 1 "A"
    (by simp [uniquePairs]) (by simp) (by decide) (by decide)
  simpa using happ

/-- C6: only positively identified detections enter the tracking cache.
One loop iteration either leaves the pending cache insertions unchanged,
or — on a cache hit — appends a refresh alias of the hit entry, or —
exactly when the cache missed, extraction succeeded, the matcher
accepted with a non-null (truthy) identity and the pipeline-level
minimum confidence was met — appends one new entry carrying that
identity and confidence.  An unmatched or below-threshold detection is
never inserted, so the same box on the next frame re-runs extraction and
matching. -/
theorem cache_inserts_only_positive (m : FaceMatcher) (ex : Box → Option (List ℚ))
    (sessions : ℕ → Option AttendanceSession) (min_conf : ℝ) (session_id : ℕ)
    (now : ℚ) (w h : ℕ) (st : FrameLoopState) (face : Box × ℚ) :
    (processDetection m ex sessions min_conf session_id now w h st face).newRefs
        = st.newRefs ∨
    (∃ i, findCachedIdx face.1 st.live = some i ∧
      (processDetection m ex sessions min_conf session_id now w h st face).newRefs
        = st.newRefs ++ [Sum.inl i]) ∨
    (∃ e enc, findCachedIdx face.1 st.live = none ∧ ex face.1 = some enc ∧
      (recognize_face m (some enc)).1 = some e.id ∧ e.id ≠ 0 ∧
      e.conf = (recognize_face m (some enc)).2.2 ∧ ¬ e.conf < min_conf ∧
      (processDetection m ex sessions min_conf session_id now w h st face).newRefs
        = st.newRefs ++ [Sum.inr e]) := by
  obtain ⟨live, newRefs, records, recogs, err⟩ := st
  cases err with
  | true => left; simp [processDetection]
  | false =>
    cases hfind : findCachedIdx face.1 live with
    | some i =>
      cases hget : live[i]? with
      | none => left; simp [processDetection, hfind, List.get?_eq_getElem?, hget]
      | some e =>
        right; left
        refine ⟨i, rfl, ?_⟩
        simp only [processDetection, Bool.false_eq_true, if_false, hfind,
          List.get?_eq_getElem?, hget]
        exact (finishDetection_live_newRefs sessions session_id now w h _ _ _ _ _).2
    | none =>
      cases hex : ex face.1 with
      | none => left; simp [processDetection, hfind, hex]
      | some enc =>
        by_cases hlt : (recognize_face m (some enc)).2.2 < min_conf
        · left
          simp only [processDetection, Bool.false_eq_true, if_false, hfind, hex,
            if_pos hlt]
          rw [show truthyId none = false from rfl]
          simp only [Bool.false_eq_true, if_false]
          exact (finishDetection_live_newRefs sessions session_id now w h _ _ _ _ _).2
        · cases hsid : (recognize_face m (some enc)).1 with
          | none =>
            left
            simp only [processDetection, Bool.false_eq_true, if_false, hfind, hex,
              if_neg hlt, hsid]
            rw [show truthyId none = false from rfl]
            simp only [Bool.false_eq_true, if_false]
            exact (finishDetection_live_newRefs sessions session_id now w h _ _ _ _ _).2
          | some n =>
            by_cases hn : n = 0
            · left
              simp only [processDetection, Bool.false_eq_true, if_false, hfind, hex,
                if_neg hlt, hsid]
              rw [show truthyId (some n) = false by simp [truthyId, hn]]
              simp only [Bool.false_eq_true, if_false]
              exact (finishDetection_live_newRefs sessions session_id now w h _ _ _ _ _).2
            · right; right
              refine ⟨⟨face.1, n, ((recognize_face m (some enc)).2.1).getD "",
                (recognize_face m (some enc)).2.2, now⟩,
                enc, rfl, rfl, by simp [hsid], hn, rfl, hlt, ?_⟩
              simp only [processDetection, Bool.false_eq_true, if_false, hfind, hex,
                if_neg hlt, hsid]
              rw [show truthyId (some n) = true by simp [truthyId, hn]]
              simp only [if_true]
              rw [(finishDetection_live_newRefs sessions session_id now w h _ _ _ _ _).2]
              simp

/-- Helper: the Python `max(..., key=snd)` fold returns an element of
the list preceded only by strictly smaller keys and followed only by
keys no larger — the first maximal element. -/
theorem pyMaxBySnd_split (hd : ℕ × ℝ) (tl : List (ℕ × ℝ)) :
    ∃ l1 l2, hd :: tl = l1 ++ pyMaxBySnd hd tl :: l2 ∧
      (∀ y ∈ l1, y.2 < (pyMaxBySnd hd tl).2) ∧
      (∀ y ∈ l2, y.2 ≤ (pyMaxBySnd hd tl).2) := by
  induction tl generalizing hd with
  | nil => exact ⟨[], [], rfl, by simp, by simp⟩
  | cons y tl ih =>
    by_cases hlt : hd.2 < y.2
    · have hstep : pyMaxBySnd hd (y :: tl) = pyMaxBySnd y tl := by
        simp [pyMaxBySnd, hlt]
      obtain ⟨l1, l2, heq, h1, h2⟩ := ih y
      refine ⟨hd :: l1, l2, ?_, ?_, fun z hz => by rw [hstep]; exact h2 z hz⟩
      · rw [hstep, List.cons_append, ← heq]
      · intro z hz
        rcases List.mem_cons.mp hz with rfl | hz2
        · rw [hstep]
          cases l1 with
          | nil =>
            have hy : y = pyMaxBySnd y tl := by
              have h3 := heq
              rw [List.nil_append] at h3
              exact (List.cons.injEq _ _ _ _ ▸ h3 : _ ∧ _).1
            rw [← hy]
            exact hlt
          | cons a l1' =>
            have h3 : y = a ∧ tl = l1' ++ pyMaxBySnd y tl :: l2 := by
              rw [List.cons_append] at heq
              exact (List.cons.injEq _ _ _ _ ▸ heq : _ ∧ _)
            have hy : y ∈ a :: l1' := by
              rw [h3.1]
              exact List.mem_cons_self a l1'
            exact lt_trans hlt (h1 y hy)
        · rw [hstep]
          exact h1 z hz2
    · have hstep : pyMaxBySnd hd (y :: tl) = pyMaxBySnd hd tl := by
        simp [pyMaxBySnd, hlt]
      obtain ⟨l1, l2, heq, h1, h2⟩ := ih hd
      cases l1 with
      | nil =>
        rw [List.nil_append] at heq
        have hres : hd = pyMaxBySnd hd tl := (List.cons.injEq _ _ _ _ ▸ heq : _ ∧ _).1
        have htl : tl = l2 := (List.cons.injEq _ _ _ _ ▸ heq : _ ∧ _).2
        refine ⟨[], y :: l2, ?_, by simp, ?_⟩
        · rw [hstep, List.nil_append, ← hres, htl]
        · intro z hz
          rcases List.mem_cons.mp hz with rfl | hz2
          · rw [hstep, ← hres]
            exact le_of_not_lt hlt
          · rw [hstep]
            exact h2 z hz2
      | cons a l1' =>
        rw [List.cons_append] at heq
        have h3 : hd = a ∧ tl = l1' ++ pyMaxBySnd hd tl :: l2 :=
          (List.cons.injEq _ _ _ _ ▸ heq : _ ∧ _)
        have hmem : hd ∈ a :: l1' := by
          rw [h3.1]
          exact List.mem_cons_self a l1'
        refine ⟨hd :: y :: l1', l2, ?_,
          ?_, fun z hz => by rw [hstep]; exact h2 z hz⟩
        · rw [hstep]
          simp only [List.cons_append]
          rw [← h3.2]
        · intro z hz
          rcases List.mem_cons.mp hz with rfl | hz2
          · rw [hstep]
            exact h1 _ hmem
          · rcases List.mem_cons.mp hz2 with rfl | hz3
            · rw [hstep]
              exact lt_of_le_of_lt (le_of_not_lt hlt) (h1 hd hmem)
            · rw [hstep]
              exact h1 z (List.mem_cons_of_mem a hz3)

/-- Helper: the Python `max` fold picks a member of the list whose key
dominates every key in the list. -/
theorem pyMaxBySnd_mem_max (hd : ℕ × ℝ) (tl : List (ℕ × ℝ)) :
    pyMaxBySnd hd tl ∈ hd :: tl ∧
      ∀ y ∈ hd :: tl, y.2 ≤ (pyMaxBySnd hd tl).2 := by
  obtain ⟨l1, l2, heq, h1, h2⟩ := pyMaxBySnd_split hd tl
  constructor
  · rw [heq]
    exact List.mem_append.mpr (Or.inr (List.mem_cons_self _ _))
  · intro y hy
    rw [heq] at hy
    rcases List.mem_append.mp hy with hy2 | hy2
    · exact le_of_lt (h1 y hy2)
    · rcases List.mem_cons.mp hy2 with h' | hy3
      · rw [h']
      · exact h2 y hy3

/-- Helper: the first components of `enumFrom` are strictly increasing. -/
theorem enumFrom_fst_pairwise (l : List (List ℚ)) (n : ℕ) :
    (l.enumFrom n).Pairwise (fun a b => a.1 < b.1) := by
  induction l generalizing n with
  | nil => exact List.Pairwise.nil
  | cons x xs ih =>
    rw [List.enumFrom_cons]
    refine List.Pairwise.cons ?_ (ih (n + 1))
    intro y hy
    have := List.le_fst_of_mem_enumFrom hy
    omega

/-- Helper: the similarity list carries strictly increasing store
indices, so list order IS store insertion order. -/
theorem similarities_idx_sorted (m : FaceMatcher) (q : List ℚ) :
    (similarities m q).Pairwise (fun a b => a.1 < b.1) := by
  unfold similarities
  refine List.Pairwise.map _ (fun a b hab => hab) ?_
  exact (enumFrom_fst_pairwise m.known_face_encodings 0).filter _

/-- Helper: every scored candidate's index addresses a stored encoding. -/
theorem similarities_idx_lt (m : FaceMatcher) (q : List ℚ) (p : ℕ × ℝ)
    (hp : p ∈ similarities m q) : p.1 < m.known_face_encodings.length := by
  unfold similarities at hp
  obtain ⟨x, hx, hxe⟩ := List.mem_map.mp hp
  have hx2 := (List.mem_filter.mp hx).1
  have := List.fst_lt_add_of_mem_enumFrom hx2
  have h1 : p.1 = x.1 := by rw [← hxe]
  omega

/-- Helper: the squared distance of an encoding to itself vanishes. -/
theorem sqDist_self (a : List ℚ) : sqDist a a = 0 := by
  induction a with
  | nil => rfl
  | cons x xs ih => simp [sqDist, List.zip_cons_cons] at ih ⊢; exact ih

/-- Helper: a zero-distance 128-d query scores confidence exactly 1. -/
theorem similarityOf_self_128 (q : List ℚ) (hq : q.length = 128) :
    similarityOf q q = 1 := by
  simp [similarityOf, hq, euclideanDistance, sqDist_self, Real.sqrt_zero]

/-- Helper: when the best scored candidate meets the regime threshold,
`recognize_face` returns that candidate's stored id and name together
with the best confidence. -/
theorem recognize_face_accept (m : FaceMatcher) (q : List ℚ) (s : ℕ × ℝ)
    (ss : List (ℕ × ℝ)) (hwf : storeWF m)
    (hsims : similarities m q = s :: ss)
    (hacc : (if q.length = 128 then m.confidence_threshold else 3 / 10)
      ≤ (pyMaxBySnd s ss).2) :
    ∃ sid nmv, m.known_face_ids.get? (pyMaxBySnd s ss).1 = some sid ∧
      m.known_face_names.get? (pyMaxBySnd s ss).1 = some nmv ∧
      recognize_face m (some q) = (some sid, some nmv, (pyMaxBySnd s ss).2) := by
  have hmem : pyMaxBySnd s ss ∈ similarities m q := by
    rw [hsims]
    exact (pyMaxBySnd_mem_max s ss).1
  have hlt := similarities_idx_lt m q _ hmem
  have hne : ¬ m.known_face_encodings.length = 0 := by omega
  obtain ⟨hid, hnm, hmd⟩ := hwf
  have hidlt : (pyMaxBySnd s ss).1 < m.known_face_ids.length := by
    rw [hid]
    exact hlt
  have hnmlt : (pyMaxBySnd s ss).1 < m.known_face_names.length := by
    rw [hnm]
    exact hlt
  refine ⟨m.known_face_ids.get ⟨_, hidlt⟩, m.known_face_names.get ⟨_, hnmlt⟩,
    List.get?_eq_get hidlt, List.get?_eq_get hnmlt, ?_⟩
  simp only [recognize_face, if_neg hne, hsims]
  rw [if_pos hacc, List.get?_eq_get hidlt, List.get?_eq_get hnmlt]

/-- C3: recognition of a 128-dimensional query embedding against a
well-formed store.  Every stored encoding of the same dimensionality is
scored with confidence `1 / (1 + Euclidean distance)`; the best scored
candidate is accepted exactly when its confidence reaches the configured
threshold (boundary inclusive), returning its id, name and confidence;
on rejection the observed best confidence is still returned with no
identity; and a null embedding, an empty store, or a store with no
matching-dimensionality encoding yields `(none, none, 0)`. -/
theorem recognize_face_spec (m : FaceMatcher) (q : List ℚ)
    (hq : q.length = 128) (hwf : storeWF m) :
    (∀ i e, m.known_face_encodings.get? i = some e → e.length = 128 →
      (i, 1 / (1 + euclideanDistance q e)) ∈ similarities m q) ∧
    recognize_face m none = (none, none, 0) ∧
    (m.known_face_encodings = [] → recognize_face m (some q) = (none, none, 0)) ∧
    (similarities m q = [] → recognize_face m (some q) = (none, none, 0)) ∧
    (∀ s ss, similarities m q = s :: ss →
      (∀ p ∈ s :: ss, p.2 ≤ (pyMaxBySnd s ss).2) ∧
      (m.confidence_threshold ≤ (pyMaxBySnd s ss).2 →
        ∃ sid nmv, m.known_face_ids.get? (pyMaxBySnd s ss).1 = some sid ∧
          m.known_face_names.get? (pyMaxBySnd s ss).1 = some nmv ∧
          recognize_face m (some q) = (some sid, some nmv, (pyMaxBySnd s ss).2)) ∧
      ((pyMaxBySnd s ss).2 < m.confidence_threshold →
        recognize_face m (some q) = (none, none, (pyMaxBySnd s ss).2))) := by
  refine ⟨?_, rfl, ?_, ?_, ?_⟩
  · intro i e hie hlen
    unfold similarities
    have h1 : (i, e) ∈ m.known_face_encodings.enum :=
      List.mk_mem_enum_iff_get?.mpr hie
    have h2 : (i, e) ∈ m.known_face_encodings.enum.filter
        (fun p => p.2.length = q.length) := by
      rw [List.mem_filter]
      exact ⟨h1, by simp [hlen, hq]⟩
    have h3 := List.mem_map_of_mem (fun p => (p.1, similarityOf q p.2)) h2
    simpa [similarityOf, hq] using h3
  · intro he
    simp [recognize_face, he]
  · intro hsims
    by_cases he : m.known_face_encodings.length = 0
    · simp [recognize_face, he]
    · simp [recognize_face, he, hsims]
  · intro s ss hsims
    refine ⟨(pyMaxBySnd_mem_max s ss).2, ?_, ?_⟩
    · intro hthr
      exact recognize_face_accept m q s ss hwf hsims (by rw [hq]; simpa using hthr)
    · intro hlt
      have hne : ¬ m.known_face_encodings.length = 0 := by
        have hmem : pyMaxBySnd s ss ∈ similarities m q := by
          rw [hsims]
          exact (pyMaxBySnd_mem_max s ss).1
        have := similarities_idx_lt m q _ hmem
        omega
      simp only [recognize_face, if_neg hne, hsims, hq, if_true]
      rw [if_neg (not_le.mpr hlt)]

/-- Witness for C3 at a concrete input: a query identical to the single
stored 128-d encoding scores confidence exactly 1, which sits exactly on
the configured threshold 1 and is accepted (boundary inclusive). -/
theorem recognize_face_spec_witness :
    similarities matcher128 (List.replicate 128 0) = [(0, 1)] ∧
    matcher128.confidence_threshold = 1 ∧
    (∃ sid nmv,
      matcher128.known_face_ids.get? (pyMaxBySnd (0, 1) []).1 = some sid ∧
      matcher128.known_face_names.get? (pyMaxBySnd (0, 1) []).1 = some nmv ∧
      recognize_face matcher128 (some (List.replicate 128 0))
        = (some sid, some nmv, (pyMaxBySnd (0, 1) []).2)) := by
  have hsim1 : similarityOf (List.replicate 128 (0 : ℚ)) (List.replicate 128 0) = 1 :=
    similarityOf_self_128 _ (by simp)
  have hsims : similarities matcher128 (List.replicate 128 0) = [(0, 1)] := by
    unfold similarities
    rw [show matcher128.known_face_encodings = [List.replicate 128 (0 : ℚ)] from rfl]
    rw [show ([List.replicate 128 (0 : ℚ)]).enum
      = [(0, List.replicate 128 (0 : ℚ))] from rfl]
    rw [List.filter_cons, if_pos (by simp), List.filter_nil, List.map_cons,
      List.map_nil, hsim1]
  refine ⟨hsims, rfl, ((recognize_face_spec matcher128 (List.replicate 128 0)
    (by simp) ⟨rfl, rfl, rfl⟩).2.2.2.2 (0, 1) [] hsims).2.1 ?_⟩
  show matcher128.confidence_threshold ≤ (pyMaxBySnd (0, 1) []).2
  norm_num [pyMaxBySnd, matcher128]

/-- C8: the tie-break is store insertion order, first wins.  Among the
scored candidates (whose list order is exactly ascending store index),
any candidate tying the best confidence has a store index no smaller
than the chosen one, and on acceptance `recognize_face` returns exactly
the chosen candidate's stored id and name. -/
theorem tie_break_first_inserted (m : FaceMatcher) (q : List ℚ) (s : ℕ × ℝ)
    (ss : List (ℕ × ℝ)) (hwf : storeWF m)
    (hsims : similarities m q = s :: ss) :
    (∀ p ∈ s :: ss, p.2 = (pyMaxBySnd s ss).2 → (pyMaxBySnd s ss).1 ≤ p.1) ∧
    ((if q.length = 128 then m.confidence_threshold else 3 / 10)
        ≤ (pyMaxBySnd s ss).2 →
      ∃ sid nmv, m.known_face_ids.get? (pyMaxBySnd s ss).1 = some sid ∧
        m.known_face_names.get? (pyMaxBySnd s ss).1 = some nmv ∧
        recognize_face m (some q) = (some sid, some nmv, (pyMaxBySnd s ss).2)) := by
  constructor
  · intro p hp heq
    obtain ⟨l1, l2, heq2, h1, h2⟩ := pyMaxBySnd_split s ss
    have hsorted := similarities_idx_sorted m q
    rw [hsims, heq2] at hsorted
    rw [heq2] at hp
    rcases List.mem_append.mp hp with hp1 | hp2
    · exact absurd (heq ▸ h1 p hp1) (lt_irrefl _)
    · rcases List.mem_cons.mp hp2 with h' | hp3
      · rw [h']
      · have hpair := (List.pairwise_append.mp hsorted).2.1
        exact le_of_lt ((List.pairwise_cons.mp hpair).1 p hp3)
  · intro hthr
    exact recognize_face_accept m q s ss hwf hsims hthr

/-- Witness for C8 at a concrete input: two identical stored 128-d
encodings tie at confidence 1 for an identical query; the fold picks the
first (index 0, id 1), every tying candidate has index at least 0, and
recognition returns the first-inserted candidate. -/
theorem tie_break_first_inserted_witness :
    pyMaxBySnd (0, 1) [(1, 1)] = (0, 1) ∧
    (∀ p ∈ [((0 : ℕ), (1 : ℝ)), (1, 1)],
      p.2 = (pyMaxBySnd (0, 1) [(1, 1)]).2 → (pyMaxBySnd (0, 1) [(1, 1)]).1 ≤ p.1) ∧
    (∃ sid nmv,
      matcherTie.known_face_ids.get? (pyMaxBySnd (0, 1) [(1, 1)]).1 = some sid ∧
      matcherTie.known_face_names.get? (pyMaxBySnd (0, 1) [(1, 1)]).1 = some nmv ∧
      recognize_face matcherTie (some (List.replicate 128 0))
        = (some sid, some nmv, (pyMaxBySnd (0, 1) [(1, 1)]).2)) := by
  have hsim1 : similarityOf (List.replicate 128 (0 : ℚ)) (List.replicate 128 0) = 1 :=
    similarityOf_self_128 _ (by simp)
  have hsims : similarities matcherTie (List.replicate 128 0) = [(0, 1), (1, 1)] := by
    unfold similarities
    rw [show matcherTie.known_face_encodings
      = [List.replicate 128 (0 : ℚ), List.replicate 128 (0 : ℚ)] from rfl]
    rw [show ([List.replicate 128 (0 : ℚ), List.replicate 128 (0 : ℚ)]).enum
      = [(0, List.replicate 128 (0 : ℚ)), (1, List.replicate 128 (0 : ℚ))] from rfl]
    rw [List.filter_cons, if_pos (by simp), List.filter_cons, if_pos (by simp),
      List.filter_nil, List.map_cons, List.map_cons, List.map_nil, hsim1]
  have happ := tie_break_first_inserted matcherTie (List.replicate 128 0) (0, 1)
    [(1, 1)] ⟨rfl, rfl, rfl⟩ hsims
  refine ⟨by norm_num [pyMaxBySnd], happ.1, happ.2 ?_⟩
  norm_num [pyMaxBySnd, matcherTie]

/-- Helper: a squared norm is a sum of squares, hence nonnegative. -/
theorem normSq_nonneg (a : List ℚ) : 0 ≤ normSq a := by
  induction a with
  | nil => norm_num [normSq, dotQ]
  | cons x xs ih =>
    have h : normSq (x :: xs) = x * x + normSq xs := by
      simp [normSq, dotQ]
    nlinarith [mul_self_nonneg x]

/-- Helper: the Cauchy-Schwarz inequality for the list dot product. -/
theorem dotQ_sq_le (a b : List ℚ) : (dotQ a b) ^ 2 ≤ normSq a * normSq b := by
  induction a generalizing b with
  | nil => simp [dotQ, normSq]
  | cons x xs ih =>
    cases b with
    | nil =>
      simp [dotQ, normSq]
    | cons y ys =>
      have hd : dotQ (x :: xs) (y :: ys) = x * y + dotQ xs ys := by simp [dotQ]
      have hna : normSq (x :: xs) = x * x + normSq xs := by simp [normSq, dotQ]
      have hnb : normSq (y :: ys) = y * y + normSq ys := by simp [normSq, dotQ]
      have h1 := ih ys
      have h2 := normSq_nonneg xs
      have h3 := normSq_nonneg ys
      rw [hd, hna, hnb]
      rcases eq_or_lt_of_le h3 with hB0 | hBpos
      · have hd2 : (dotQ xs ys) ^ 2 ≤ 0 := by
          rw [← hB0] at h1
          simpa using h1
        have hd0 : dotQ xs ys = 0 := by
          have := sq_nonneg (dotQ xs ys)
          nlinarith
        rw [hd0, ← hB0]
        nlinarith [mul_self_nonneg x, mul_self_nonneg y, mul_nonneg h2 (mul_self_nonneg y)]
      · nlinarith [sq_nonneg (x * normSq ys - y * dotQ xs ys),
          mul_nonneg (sub_nonneg.mpr h1)
            (by positivity : (0:ℚ) ≤ y ^ 2 + normSq ys),
          hBpos, h1, h2, h3]

/-- Helper: cosine similarity always lies in `[-1, 1]` (with the Lean
convention that division by a zero norm yields 0). -/
theorem cosineSimilarity_bounds (a b : List ℚ) :
    -1 ≤ cosineSimilarity a b ∧ cosineSimilarity a b ≤ 1 := by
  have hcs : ((dotQ a b : ℚ) : ℝ) ^ 2 ≤ ((normSq a : ℚ) : ℝ) * ((normSq b : ℚ) : ℝ) := by
    exact_mod_cast dotQ_sq_le a b
  have hna : (0 : ℝ) ≤ ((normSq a : ℚ) : ℝ) := by exact_mod_cast normSq_nonneg a
  rw [cosineSimilarity]
  rcases eq_or_ne (Real.sqrt ((normSq a : ℚ) : ℝ) * Real.sqrt ((normSq b : ℚ) : ℝ)) 0 with
    h0 | h0
  · rw [h0, div_zero]
    norm_num
  · have hpos : 0 < Real.sqrt ((normSq a : ℚ) : ℝ) * Real.sqrt ((normSq b : ℚ) : ℝ) :=
      lt_of_le_of_ne (mul_nonneg (Real.sqrt_nonneg _) (Real.sqrt_nonneg _)) (Ne.symm h0)
    have habs : |((dotQ a b : ℚ) : ℝ)|
        ≤ Real.sqrt ((normSq a : ℚ) : ℝ) * Real.sqrt ((normSq b : ℚ) : ℝ) := by
      rw [← Real.sqrt_mul hna]
      exact Real.abs_le_sqrt hcs
    constructor
    · rw [le_div_iff hpos]
      have := (abs_le.mp habs).1
      linarith
    · rw [div_le_one hpos]
      exact le_trans (le_abs_self _) habs

/-- Helper: Euclidean-regime confidence lies in `[0, 1]`. -/
theorem euclidConf_bounds (q e : List ℚ) :
    0 ≤ 1 / (1 + euclideanDistance q e) ∧ 1 / (1 + euclideanDistance q e) ≤ 1 := by
  have h0 : 0 ≤ euclideanDistance q e := Real.sqrt_nonneg _
  constructor
  · positivity
  · rw [div_le_one (by linarith)]
    linarith

/-- Helper: either scoring regime produces a confidence in `[-1, 1]`. -/
theorem similarityOf_bounds (q e : List ℚ) :
    -1 ≤ similarityOf q e ∧ similarityOf q e ≤ 1 := by
  unfold similarityOf
  split
  · have h := euclidConf_bounds q e
    exact ⟨by linarith [h.1], h.2⟩
  · exact cosineSimilarity_bounds q e

/-- Helper: every scored candidate's confidence lies in `[-1, 1]`. -/
theorem similarities_snd_bounds (m : FaceMatcher) (q : List ℚ) (p : ℕ × ℝ)
    (hp : p ∈ similarities m q) : -1 ≤ p.2 ∧ p.2 ≤ 1 := by
  unfold similarities at hp
  obtain ⟨x, hx, hxe⟩ := List.mem_map.mp hp
  rw [← hxe]
  exact similarityOf_bounds q x.2

/-- Helper: the confidence component of any recognition result lies in
`[-1, 1]`. -/
theorem recognize_face_conf_bounds (m : FaceMatcher) (q? : Option (List ℚ)) :
    -1 ≤ (recognize_face m q?).2.2 ∧ (recognize_face m q?).2.2 ≤ 1 := by
  cases q? with
  | none => norm_num [recognize_face]
  | some q =>
    by_cases he : m.known_face_encodings.length = 0
    · norm_num [recognize_face, he]
    · cases hsims : similarities m q with
      | nil => norm_num [recognize_face, he, hsims]
      | cons s ss =>
        have hbest : -1 ≤ (pyMaxBySnd s ss).2 ∧ (pyMaxBySnd s ss).2 ≤ 1 := by
          apply similarities_snd_bounds m q
          rw [hsims]
          exact (pyMaxBySnd_mem_max s ss).1
        simp only [recognize_face, if_neg he, hsims]
        generalize (if q.length = 128 then m.confidence_threshold else (3 : ℝ) / 10) = t
        split
        · split <;> first | exact hbest | norm_num
        · exact hbest

/-- Helper: truncation toward zero of `100 · x` for `x ∈ [-1, 1]` lies
in `[-100, 100]`. -/
theorem pyInt_bounds {x : ℝ} (h1 : -1 ≤ x) (h2 : x ≤ 1) :
    -100 ≤ pyInt (x * 100) ∧ pyInt (x * 100) ≤ 100 := by
  unfold pyInt
  split
  · rename_i h0
    constructor
    · have h := Int.floor_nonneg.mpr h0
      omega
    · have h : ⌊x * 100⌋ ≤ ⌊((100 : ℤ) : ℝ)⌋ := Int.floor_le_floor (by push_cast; nlinarith)
      rw [Int.floor_intCast] at h
      exact h
  · rename_i h0
    push_neg at h0
    constructor
    · have h : ⌈((-100 : ℤ) : ℝ)⌉ ≤ ⌈x * 100⌉ := Int.ceil_le_ceil (by push_cast; nlinarith)
      rw [Int.ceil_intCast] at h
      exact h
    · have h : ⌈x * 100⌉ ≤ ⌈((0 : ℤ) : ℝ)⌉ := Int.ceil_le_ceil (by push_cast; linarith)
      rw [Int.ceil_intCast] at h
      omega

/-- Helper: a successful recorder call reports one of the three stored
status strings. -/
theorem recordAttendance_status_mem {sessions : ℕ → Option AttendanceSession}
    {records : List AttendanceRecord} {session_id : ℕ} {now : ℚ} {student : ℕ}
    {mc : ℝ} {recs' : List AttendanceRecord} {status : String}
    (h : recordAttendance sessions records session_id now student mc
      = some (recs', status)) :
    status = "present" ∨ status = "late" ∨ status = "absent" := by
  unfold recordAttendance at h
  cases hf : records.find?
      (fun r => r.session_id == session_id && r.student_id == student) with
  | some ex =>
    simp only [hf] at h
    cases h
    cases hst : ex.status <;> simp [AttendanceStatus.value]
  | none =>
    simp only [hf] at h
    cases hs : sessions session_id with
    | none => simp only [hs] at h; cases h
    | some s =>
      simp only [hs] at h
      cases hns : classifyStatus s ((now - s.start_time) / 60) with
      | PRESENT =>
        rw [hns, if_pos (by decide)] at h
        split at h
        · rename_i recs2 hdb
          cases h
          left
          rfl
        · cases h
      | LATE =>
        rw [hns, if_pos (by decide)] at h
        split at h
        · rename_i recs2 hdb
          cases h
          right
          left
          rfl
        · cases h
      | ABSENT =>
        rw [hns, if_neg (by decide)] at h
        cases h
        right
        right
        rfl

/-- Helper: the loop-body tail only appends well-formed response
elements: a status among the four strings and a truncated confidence in
`[-100, 100]` whenever the match confidence is in `[-1, 1]`. -/
theorem finishDetection_respOK (sessions : ℕ → Option AttendanceSession)
    (session_id : ℕ) (now : ℚ) (w h : ℕ) (st : FrameLoopState) (box : Box)
    (sid : Option ℕ) (nm : Option String) (mc : ℝ)
    (hmc1 : -1 ≤ mc) (hmc2 : mc ≤ 1) (hresp : respOK st) :
    respOK (finishDetection sessions session_id now w h st box sid nm mc) := by
  have hconf := pyInt_bounds hmc1 hmc2
  unfold finishDetection
  split
  · cases hr : recordAttendance sessions st.records session_id now (sid.getD 0) mc with
    | none => exact hresp
    | some v =>
      obtain ⟨recs, status⟩ := v
      intro r hrm
      rcases List.mem_append.mp hrm with h1 | h1
      · exact hresp r h1
      · rw [List.mem_singleton] at h1
        subst h1
        refine ⟨?_, by simpa [mkRecognition] using hconf.1,
          by simpa [mkRecognition] using hconf.2⟩
        rcases recordAttendance_status_mem hr with h' | h' | h' <;>
          simp [mkRecognition, h']
  · intro r hrm
    rcases List.mem_append.mp hrm with h1 | h1
    · exact hresp r h1
    · rw [List.mem_singleton] at h1
      subst h1
      exact ⟨Or.inr (Or.inr (Or.inr rfl)),
        by simpa [mkRecognition] using hconf.1,
        by simpa [mkRecognition] using hconf.2⟩

/-- Helper: one loop iteration keeps cached confidences in `[-1, 1]` and
response elements well formed. -/
theorem processDetection_bounds (m : FaceMatcher) (ex : Box → Option (List ℚ))
    (sessions : ℕ → Option AttendanceSession) (min_conf : ℝ) (session_id : ℕ)
    (now : ℚ) (w h : ℕ) (st : FrameLoopState) (face : Box × ℚ)
    (hcb : confBounded st) (hro : respOK st) :
    confBounded (processDetection m ex sessions min_conf session_id now w h st face) ∧
    respOK (processDetection m ex sessions min_conf session_id now w h st face) := by
  obtain ⟨live, newRefs, records, recogs, err⟩ := st
  cases err with
  | true =>
    exact ⟨by simpa [processDetection] using hcb,
      by simpa [processDetection] using hro⟩
  | false =>
    cases hfind : findCachedIdx face.1 live with
    | some i =>
      cases hget : live[i]? with
      | none =>
        exact ⟨by simpa [processDetection, hfind, List.get?_eq_getElem?, hget] using hcb,
          by simpa [processDetection, hfind, List.get?_eq_getElem?, hget] using hro⟩
      | some e =>
        have hec := hcb e (List.getElem?_mem hget)
        simp only [processDetection, Bool.false_eq_true, if_false, hfind,
          List.get?_eq_getElem?, hget]
        constructor
        · intro e' he'
          rw [(finishDetection_live_newRefs sessions session_id now w h _ _ _ _ _).1] at he'
          rcases List.mem_or_eq_of_mem_set he' with h' | h'
          · exact hcb e' h'
          · rw [h']
            exact hec
        · exact finishDetection_respOK sessions session_id now w h _ face.1
            (some e.id) (some e.name) e.conf hec.1 hec.2 hro
    | none =>
      cases hex : ex face.1 with
      | none =>
        exact ⟨by simpa [processDetection, hfind, hex] using hcb,
          by simpa [processDetection, hfind, hex] using hro⟩
      | some enc =>
        have hrb := recognize_face_conf_bounds m (some enc)
        simp only [processDetection, Bool.false_eq_true, if_false, hfind, hex]
        constructor
        · intro e' he'
          rw [(finishDetection_live_newRefs sessions session_id now w h _ _ _ _ _).1] at he'
          exact hcb e' he'
        · exact finishDetection_respOK sessions session_id now w h _ face.1 _ _ _
            hrb.1 hrb.2 hro

/-- Helper: the whole per-frame loop produces only well-formed response
elements provided the starting cache confidences are in range. -/
theorem frameFold_respOK (m : FaceMatcher) (ex : Box → Option (List ℚ))
    (sessions : ℕ → Option AttendanceSession) (min_conf : ℝ) (session_id : ℕ)
    (now : ℚ) (w h : ℕ) (records0 : List AttendanceRecord)
    (cache0 : List CacheEntry) (faces : List (Box × ℚ))
    (hcache : ∀ e ∈ cache0, -1 ≤ e.conf ∧ e.conf ≤ 1) :
    respOK (frameFold m ex sessions min_conf session_id now w h
      records0 cache0 faces) := by
  unfold frameFold
  have h0 : confBounded
      { live := evictCache cache0 now, newRefs := [], records := records0,
        recognitions := [], err := false } ∧
      respOK
      { live := evictCache cache0 now, newRefs := [], records := records0,
        recognitions := [], err := false } := by
    constructor
    · intro e he
      exact hcache e (List.mem_of_mem_filter he)
    · intro r hr
      cases hr
  have hgen : ∀ (init : FrameLoopState), confBounded init ∧ respOK init →
      confBounded (faces.foldl
        (processDetection m ex sessions min_conf session_id now w h) init) ∧
      respOK (faces.foldl
        (processDetection m ex sessions min_conf session_id now w h) init) := by
    induction faces with
    | nil => exact fun init hi => hi
    | cons f fs ih =>
      intro init hi
      exact ih _ (processDetection_bounds m ex sessions min_conf session_id
        now w h init f hi.1 hi.2)
  exact (hgen _ h0).2

/-- C9 counterexample: a 2-dimensional query against an opposed stored
encoding scores cosine similarity −1; the unmatched detection is still
reported, with status "unknown" and confidence `int(−1 · 100) = −100`,
outside the claimed `[0, 100]` range. -/
theorem negative_confidence_in_response :
    cosineSimilarity [1, 0] [-1, 0] = -1 ∧
    ((process_frame matcherC9 (fun _ => some [1, 0]) (3 / 4) stateC9
        1 100 [(boxEx, 1 / 2)] 640 480).2.getD []).map
        (fun r => (r.confidence, r.status))
      = [(-100, "unknown")] := by
  have hcos : cosineSimilarity [1, 0] [-1, 0] = -1 := by
    have hd : dotQ [1, 0] [-1, 0] = -1 := by norm_num [dotQ]
    have hn1 : normSq [1, 0] = 1 := by norm_num [normSq, dotQ]
    have hn2 : normSq [-1, 0] = 1 := by norm_num [normSq, dotQ]
    rw [cosineSimilarity, hd, hn1, hn2]
    norm_num [Real.sqrt_one]
  have hsimOf : similarityOf [1, 0] [-1, 0] = -1 := by
    rw [similarityOf, if_neg (by norm_num)]
    exact hcos
  have hsims : similarities matcherC9 [1, 0] = [(0, -1)] := by
    unfold similarities
    rw [show matcherC9.known_face_encodings = [[-1, 0]] from rfl]
    rw [show ([[-1, 0]] : List (List ℚ)).enum = [(0, [-1, 0])] from rfl]
    rw [List.filter_cons, if_pos (by norm_num), List.filter_nil, List.map_cons,
      List.map_nil, hsimOf]
  have hrec : recognize_face matcherC9 (some [1, 0]) = (none, none, -1) := by
    have hne : ¬ matcherC9.known_face_encodings.length = 0 := by
      rw [show matcherC9.known_face_encodings = [[-1, 0]] from rfl]
      norm_num
    simp only [recognize_face, if_neg hne, hsims]
    rw [if_neg (by norm_num [pyMaxBySnd])]
    norm_num [pyMaxBySnd]
  have hstep : processDetection matcherC9 (fun _ => some [1, 0]) sessionsEx
      (3 / 4) 1 100 640 480
      { live := [], newRefs := [], records := [], recognitions := [], err := false }
      (boxEx, 1 / 2)
      = { live := [], newRefs := [], records := [],
          recognitions := [mkRecognition boxEx none none (-1) "unknown" 640 480],
          err := false } := by
    simp only [processDetection, Bool.false_eq_true, if_false]
    rw [show findCachedIdx boxEx [] = none from rfl]
    simp only [hrec]
    rw [if_pos (by norm_num : (-1 : ℝ) < 3 / 4)]
    simp [truthyId, truthyName, finishDetection]
  refine ⟨hcos, ?_⟩
  simp only [process_frame, frameFold, stateC9, evictCache, List.filter_nil,
    List.foldl_cons, List.foldl_nil]
  rw [hstep]
  have hpy : pyInt (-100 : ℝ) = -100 := by
    rw [pyInt, if_neg (by norm_num)]
    rw [show (-100 : ℝ) = ((-100 : ℤ) : ℝ) by norm_num]
    exact Int.ceil_intCast _
  simp [mkRecognition, hpy]

/-- C9 (amended): every per-detection result carries one of the four
status strings "present", "late", "absent", "unknown", and an integer
confidence within `[-100, 100]` — not `[0, 100]`: non-128-dimensional
encodings are scored by cosine similarity, which can be negative, and
`int(conf · 100)` is then negative.  The hypothesis restricts the
pre-existing cache confidences to the matcher's own output range. -/
theorem response_fields_bounded (m : FaceMatcher) (ex : Box → Option (List ℚ))
    (min_conf : ℝ) (state : ServerState) (session_id : ℕ) (now : ℚ)
    (faces : List (Box × ℚ)) (w h : ℕ)
    (hcache : ∀ e ∈ state.recognition_cache session_id, -1 ≤ e.conf ∧ e.conf ≤ 1) :
    ∀ r ∈ (process_frame m ex min_conf state session_id now faces w h).2.getD [],
      (r.status = "present" ∨ r.status = "late" ∨ r.status = "absent" ∨
        r.status = "unknown") ∧
      -100 ≤ r.confidence ∧ r.confidence ≤ 100 := by
  intro r hr
  rw [process_frame_response_eq] at hr
  by_cases herr : (frameFold m ex state.sessions min_conf session_id now w h
      state.records (state.recognition_cache session_id) faces).err = true
  · rw [if_pos herr] at hr
    cases hr
  · rw [if_neg herr] at hr
    rw [Option.getD_some] at hr
    exact frameFold_respOK m ex state.sessions min_conf session_id now w h
      state.records (state.recognition_cache session_id) faces hcache r hr

/-- Witness for the amended C9 at a concrete input: the response element
produced by a cache-hit frame for an already-recorded student has one of
the four status strings and a confidence within `[-100, 100]`. -/
theorem response_fields_bounded_witness :
    ((mkRecognition boxEx (some 7) (some "A") ((1 : ℝ) / 2) "present" 640 480).status
        = "present" ∨
      (mkRecognition boxEx (some 7) (some "A") ((1 : ℝ) / 2) "present" 640 480).status
        = "late" ∨
      (mkRecognition boxEx (some 7) (some "A") ((1 : ℝ) / 2) "present" 640 480).status
        = "absent" ∨
      (mkRecognition boxEx (some 7) (some "A") ((1 : ℝ) / 2) "present" 640 480).status
        = "unknown") ∧
    -100 ≤ (mkRecognition boxEx (some 7) (some "A") ((1 : ℝ) / 2) "present" 640 480).confidence ∧
    (mkRecognition boxEx (some 7) (some "A") ((1 : ℝ) / 2) "present" 640 480).confidence ≤ 100 := by
  have hfind : findCachedIdx boxEx
      [⟨boxEx, 7, "A", (1 : ℝ) / 2, 499 / 5⟩]
      = some 0 := by
    norm_num [findCachedIdx, List.findIdx?, calculate_iou, boxEx]
  have hstep : processDetection matcherEx (fun _ => none) sessionsEx 0 1 100 640 480
      { live := [⟨boxEx, 7, "A", (1 : ℝ) / 2, 499 / 5⟩],
        newRefs := [], records := [⟨1, 7, AttendanceStatus.PRESENT, 0, 0, false⟩],
        recognitions := [], err := false }
      (boxEx, 9 / 10)
      = { live := [⟨boxEx, 7, "A", (1 : ℝ) / 2, 100⟩],
          newRefs := [Sum.inl 0],
          records := [⟨1, 7, AttendanceStatus.PRESENT, 0, 0, false⟩],
          recognitions := [mkRecognition boxEx (some 7) (some "A") ((1 : ℝ) / 2)
            "present" 640 480],
          err := false } := by
    simp only [processDetection]
    rw [hfind]
    simp [finishDetection, truthyName, truthyId, recordAttendance, List.find?,
      mkRecognition, AttendanceStatus.value]
  have hmem : mkRecognition boxEx (some 7) (some "A") ((1 : ℝ) / 2) "present" 640 480
      ∈ (process_frame matcherEx (fun _ => none) 0
        { records := [⟨1, 7, AttendanceStatus.PRESENT, 0, 0, false⟩],
          sessions := sessionsEx,
          recognition_cache := fun k =>
            if k = 1 then [⟨boxEx, 7, "A", (1 : ℝ) / 2, 499 / 5⟩]
            else [] }
        1 100 [(boxEx, 9 / 10)] 640 480).2.getD [] := by
    simp only [process_frame, frameFold, evictCache]
    norm_num [List.filter]
    rw [hstep]
    simp
  exact response_fields_bounded matcherEx (fun _ => none) 0
    { records := [⟨1, 7, AttendanceStatus.PRESENT, 0, 0, false⟩],
      sessions := sessionsEx,
      recognition_cache := fun k =>
        if k = 1 then [⟨boxEx, 7, "A", (1 : ℝ) / 2, 499 / 5⟩]
        else [] }
    1 100 [(boxEx, 9 / 10)] 640 480
    (by
      intro e he
      simp at he
      subst he
      norm_num)
    (mkRecognition boxEx (some 7) (some "A") ((1 : ℝ) / 2) "present" 640 480) hmem

end AIAttendance
